import Mathlib

/-!
# deko3d C++ wrapper layer (`include/deko3d.hpp`)

A shallow embedding of the header-only C++ wrapper around the deko3d C driver API.

Conventions of the embedding:

* raw driver handles (`DkDevice`, `DkMemBlock`, ...) are pointers; they are natural
  numbers here and `0` is `nullptr`;
* object addresses that take part in pointer arithmetic (`ArrayProxy`) are integers,
  counted in elements;
* `uint32_t` values are natural numbers below `2 ^ 32`;
* the wrapper never looks inside the driver: every member function is embedded as the
  list of driver entry points it calls (a `DriverCall` trace), together with the new
  value of `*this` where the member function changes it and with the value it returns.
-/

namespace dk

/-- The null pointer value of a raw driver handle. -/
def nullptr : Nat := 0

/-- The five handle wrappers generated by `DK_HANDLE_COMMON_MEMBERS`; the kind stands
for the template argument of `detail::Handle<T>`. -/
inductive HandleKind where
  | Device
  | MemBlock
  | CmdBuf
  | Queue
  | Swapchain
deriving DecidableEq, Repr

/-- Driver entry points of `deko3d.h` called by the member functions embedded below,
with the arguments of the call. `DkStage` and `DkCmdList` are passed as their integer
values, pointers to arrays as the address of the first element. -/
inductive DriverCall where
  | dkDeviceDestroy (obj : Nat)
  | dkMemBlockDestroy (obj : Nat)
  | dkCmdBufDestroy (obj : Nat)
  | dkQueueDestroy (obj : Nat)
  | dkSwapchainDestroy (obj : Nat)
  | dkMemBlockFlushCpuCache (obj offset size : Nat)
  | dkMemBlockInvalidateCpuCache (obj offset size : Nat)
  | dkFenceWait (obj : Int) (timeout_ns : Int)
  | dkCmdBufAddMemory (obj mem offset size : Nat)
  | dkCmdBufFinishList (obj : Nat)
  | dkCmdBufClear (obj : Nat)
  | dkCmdBufBindUniformBuffers (obj stage firstId : Nat) (buffers : Int) (numBuffers : Nat)
  | dkCmdBufBindStorageBuffers (obj stage firstId : Nat) (buffers : Int) (numBuffers : Nat)
  | dkCmdBufBindTextures (obj stage firstId : Nat) (handles : Int) (numHandles : Nat)
  | dkCmdBufBindImages (obj stage firstId : Nat) (handles : Int) (numHandles : Nat)
  | dkCmdBufBindVtxBuffers (obj firstId : Nat) (buffers : Int) (numBuffers : Nat)
  | dkCmdBufSetViewports (obj firstId : Nat) (viewports : Int) (numViewports : Nat)
  | dkCmdBufSetScissors (obj firstId : Nat) (scissors : Int) (numScissors : Nat)
  | dkCmdBufClearColor (obj targetId clearMask : Nat) (clearData : Int)
  | dkCmdBufDispatchCompute (obj numGroupsX numGroupsY numGroupsZ : Nat)
  | dkCmdBufCopyBuffer (obj srcAddr dstAddr size : Nat)
  | dkQueueSubmitCommands (obj cmds : Nat)
  | dkQueueFlush (obj : Nat)
  | dkQueueWaitIdle (obj : Nat)
deriving DecidableEq, Repr

/-- The driver destroy entry point of each handle kind (`::dkDeviceDestroy`, ...). -/
def HandleKind.dkDestroy : HandleKind → Nat → DriverCall
  | .Device => .dkDeviceDestroy
  | .MemBlock => .dkMemBlockDestroy
  | .CmdBuf => .dkCmdBufDestroy
  | .Queue => .dkQueueDestroy
  | .Swapchain => .dkSwapchainDestroy

namespace detail

/-- The class `detail::Handle<T>`: one raw driver handle. -/
structure Handle (K : HandleKind) where
  m_handle : Nat
deriving DecidableEq, Repr

namespace Handle

variable {K : HandleKind}

/-- `void _clear() noexcept { m_handle = nullptr; }` -/
def _clear (_this : Handle K) : Handle K := ⟨nullptr⟩

/-- `void _set(T h) noexcept { _clear(); m_handle = h; }` -/
def _set (this : Handle K) (h : Nat) : Handle K :=
  let cleared := this._clear
  { cleared with m_handle := h }

/-- `constexpr Handle() noexcept : m_handle{} { }` -/
def default : Handle K := ⟨nullptr⟩

/-- `constexpr Handle(std::nullptr_t) noexcept : m_handle{} { }` -/
def ofNullptr : Handle K := ⟨nullptr⟩

/-- `constexpr Handle(T handle) noexcept : m_handle{handle} { }` -/
def ofRaw (handle : Nat) : Handle K := ⟨handle⟩

/-- `constexpr operator T() const noexcept { return m_handle; }` -/
def toRaw (this : Handle K) : Nat := this.m_handle

/-- `constexpr operator bool() const noexcept { return m_handle != nullptr; }` -/
def toBool (this : Handle K) : Bool := this.m_handle != nullptr

/-- `constexpr bool operator !() const noexcept { return m_handle == nullptr; }` -/
def not (this : Handle K) : Bool := this.m_handle == nullptr

/-- `operator==(Handle<T> const& lhs, Handle<T> const& rhs)` -/
def eq (lhs rhs : Handle K) : Bool := lhs.toRaw == rhs.toRaw

/-- `operator!=(Handle<T> const& lhs, Handle<T> const& rhs)` -/
def ne (lhs rhs : Handle K) : Bool := !(eq lhs rhs)

/-- `_name& operator=(std::nullptr_t) noexcept { _clear(); return *this; }` of
`DK_HANDLE_COMMON_MEMBERS`: the new value of `*this` and the driver calls made. -/
def assignNullptr (this : Handle K) : Handle K × List DriverCall := (this._clear, [])

/-- The member `destroy()` of each handle kind, e.g.
`Device::destroy() { ::dkDeviceDestroy(*this); _clear(); }`:
the new value of `*this` and the driver calls made. -/
def destroy (this : Handle K) : Handle K × List DriverCall :=
  (this._clear, [K.dkDestroy this.toRaw])

end Handle

/-- The operations of a plain handle wrapper: the public members of `detail::Handle<T>`,
the comparison operators and the members given by `DK_HANDLE_COMMON_MEMBERS`. -/
inductive HandleOp (K : HandleKind) where
  /-- `_name()` -/
  | construct
  /-- `_name(std::nullptr_t)` -/
  | constructNullptr
  /-- `_name(::Dk_name arg)` -/
  | constructRaw (arg : Nat)
  /-- `operator T()` -/
  | toRaw
  /-- `operator bool()` -/
  | toBool
  /-- `operator !()` -/
  | not
  /-- `operator==` with `rhs` -/
  | eq (rhs : Handle K)
  /-- `operator!=` with `rhs` -/
  | ne (rhs : Handle K)
  /-- `operator=(std::nullptr_t)` -/
  | assignNullptr
  /-- `destroy()` -/
  | destroy
deriving DecidableEq, Repr

/-- The value of the handle after an operation (the constructed handle for a
constructor) and the driver calls the operation makes. The conversions and comparisons
are `const` and call nothing. -/
def HandleOp.run {K : HandleKind} (this : Handle K) : HandleOp K → Handle K × List DriverCall
  | .construct => (Handle.default, [])
  | .constructNullptr => (Handle.ofNullptr, [])
  | .constructRaw arg => (Handle.ofRaw arg, [])
  | .toRaw => (this, [])
  | .toBool => (this, [])
  | .not => (this, [])
  | .eq _ => (this, [])
  | .ne _ => (this, [])
  | .assignNullptr => this.assignNullptr
  | .destroy => this.destroy

/-- The struct `detail::UniqueHandle<T>`, derived from the handle wrapper `T`. -/
structure UniqueHandle (K : HandleKind) extends Handle K
deriving DecidableEq, Repr

namespace UniqueHandle

variable {K : HandleKind}

/-- `UniqueHandle() noexcept : T{} { }` -/
def default : UniqueHandle K := ⟨Handle.default⟩

/-- `constexpr UniqueHandle(T&& rhs) noexcept : T{rhs} { rhs = nullptr; }`:
the constructed object and the new value of `rhs`. -/
def ofHandle (rhs : Handle K) : UniqueHandle K × Handle K :=
  (⟨rhs⟩, rhs.assignNullptr.1)

/-- `~UniqueHandle() { if (*this) T::destroy(); }`: the driver calls made. -/
def dtor (this : UniqueHandle K) : List DriverCall :=
  if this.toHandle.toBool then this.toHandle.destroy.2 else []

end UniqueHandle

/-- Statements of a block that uses unique handles; objects are named by numbers. -/
inductive UniqueOp where
  /-- `UniqueHandle<T> x;` -/
  | construct (x : Nat)
  /-- `UniqueHandle<T> x{T{h}};` for a plain handle wrapping the raw value `h` -/
  | constructFrom (x : Nat) (h : Nat)
  /-- `x = std::move(y);` -/
  | moveAssign (x y : Nat)
  /-- the scope of `x` ends -/
  | destruct (x : Nat)
deriving DecidableEq, Repr

/-- The live unique handles of a block and the driver calls made so far. -/
structure UniqueState (K : HandleKind) where
  objs : Nat → Option (UniqueHandle K)
  trace : List DriverCall

/-- No object alive, no driver call made. -/
def UniqueState.init (K : HandleKind) : UniqueState K := ⟨fun _ => none, []⟩

/-- Replace the object named `x`. -/
def UniqueState.put {K : HandleKind} (s : UniqueState K) (x : Nat)
    (v : Option (UniqueHandle K)) : UniqueState K :=
  { s with objs := fun y => if y = x then v else s.objs y }

/-- One statement. `x = std::move(y)` runs
`T::_set(rhs); rhs._clear(); return *this;` on the objects themselves, so that
`x` and `y` may name the same object. Statements on objects that are not alive
do nothing. -/
def UniqueOp.step {K : HandleKind} (s : UniqueState K) : UniqueOp → UniqueState K
  | .construct x => s.put x (some UniqueHandle.default)
  | .constructFrom x h => s.put x (some (UniqueHandle.ofHandle (Handle.ofRaw h)).1)
  | .moveAssign x y =>
    match s.objs x, s.objs y with
    | some a, some rhs =>
      let s1 := s.put x (some ⟨a.toHandle._set rhs.toHandle.toRaw⟩)
      match s1.objs y with
      | some rhs1 => s1.put y (some ⟨rhs1.toHandle._clear⟩)
      | none => s1
    | _, _ => s
  | .destruct x =>
    match s.objs x with
    | some a => { s.put x none with trace := s.trace ++ a.dtor }
    | none => s

/-- Run a block of statements from the empty state. -/
def runUnique (K : HandleKind) (prog : List UniqueOp) : UniqueState K :=
  prog.foldl UniqueOp.step (UniqueState.init K)

/-- Two owners, one move-assignment onto an owner, then both scopes end:
`UniqueDevice a{Device{1}}; UniqueDevice b{Device{2}}; a = std::move(b);` -/
def overwriteOwner : List UniqueOp :=
  [.constructFrom 0 1, .constructFrom 1 2, .moveAssign 0 1, .destruct 1, .destruct 0]

/-- The struct `detail::Opaque<T>`, derived from an opaque driver struct `T` (`DkFence`,
`DkShader`, ...), kept as the words of its storage. -/
structure Opaque where
  words : List Nat
deriving DecidableEq, Repr

/-- `constexpr Opaque() noexcept : T{} { }`: the driver struct is value-initialised, so
every word of its storage is zero; `size` is the number of words of `T`. -/
def Opaque.default (size : Nat) : Opaque := ⟨List.replicate size 0⟩

/-- The class `detail::ArrayProxy<T>`: `uint32_t m_count; T* m_ptr;`. Addresses are
counted in elements of `T`. -/
structure ArrayProxy (T : Type) where
  m_count : Nat
  m_ptr : Int
deriving DecidableEq, Repr

namespace ArrayProxy

variable {T : Type}

/-- `constexpr ArrayProxy(std::nullptr_t) noexcept : m_count{}, m_ptr{} { }` -/
def ofNullptr : ArrayProxy T := ⟨0, 0⟩

/-- `ArrayProxy(T& ptr) : m_count{1}, m_ptr(&ptr) { }`; the argument is the address
of the referenced element. -/
def ofRef (ptr : Int) : ArrayProxy T := ⟨1, ptr⟩

/-- `ArrayProxy(uint32_t count, T* ptr) noexcept : m_count{count}, m_ptr{ptr} { }` -/
def ofCountPtr (count : Nat) (ptr : Int) : ArrayProxy T := ⟨count, ptr⟩

/-- `ArrayProxy(std::array<nonconst_T, N>& data) noexcept : m_count{N}, m_ptr{data.data()} { }`
(and its const overload); `data` is the address of the first element of the array.
The braces reject an `N` that does not fit `uint32_t`. -/
def ofStdArray (N : Nat) (data : Int) : ArrayProxy T := ⟨N, data⟩

/-- `ArrayProxy(std::initializer_list<T> const& data) noexcept :
m_count{static_cast<uint32_t>(data.end() - data.begin())}, m_ptr{data.begin()} { }` -/
def ofInitializerList (dataBegin dataEnd : Int) : ArrayProxy T :=
  ⟨((dataEnd - dataBegin) % 2 ^ 32).toNat, dataBegin⟩

/-- `ArrayProxy(std::vector<nonconst_T, Allocator>& data) noexcept :
m_count{static_cast<uint32_t>(data.size())}, m_ptr{data.data()} { }` (and its const
overload), compiled under `DK_HPP_SUPPORT_VECTOR`; `size` and `data` are the size of the
vector and the address of its first element. -/
def ofVector (size : Nat) (data : Int) : ArrayProxy T := ⟨size % 2 ^ 32, data⟩

/-- `const T* begin() const noexcept { return m_ptr; }` -/
def begin (this : ArrayProxy T) : Int := this.m_ptr

/-- `const T* end() const noexcept { return m_ptr + m_count; }` -/
def end_ (this : ArrayProxy T) : Int := this.m_ptr + this.m_count

/-- `const T& front() const noexcept { return *m_ptr; }`: the address read. -/
def frontAddr (this : ArrayProxy T) : Int := this.m_ptr

/-- `const T& back() const noexcept { return *(m_ptr + m_count - 1); }`: the address read. -/
def backAddr (this : ArrayProxy T) : Int := this.m_ptr + this.m_count - 1

/-- `front()` over the storage `mem`. -/
def front (mem : Int → T) (this : ArrayProxy T) : T := mem this.frontAddr

/-- `back()` over the storage `mem`. -/
def back (mem : Int → T) (this : ArrayProxy T) : T := mem this.backAddr

/-- `bool empty() const noexcept { return m_count == 0; }` -/
def empty (this : ArrayProxy T) : Bool := this.m_count == 0

/-- `uint32_t size() const noexcept { return m_count; }` -/
def size (this : ArrayProxy T) : Nat := this.m_count

/-- `T* data() const noexcept { return m_ptr; }` -/
def data (this : ArrayProxy T) : Int := this.m_ptr

end ArrayProxy

/-- The `n` elements stored from address `ptr` on in `mem`, in order: what a callee
reads from a (pointer, count) pair. -/
def readArray {T : Type} (mem : Int → T) (ptr : Int) (n : Nat) : List T :=
  (List.range n).map fun (i : Nat) => mem (ptr + (i : Int))

/-- The elements of `vals` stored from address `addr` on, in order, over `mem`: an
array object placed at `addr`. -/
def writeArray {T : Type} (mem : Int → T) (addr : Int) (vals : List T) : Int → T :=
  fun a => if addr ≤ a ∧ a < addr + vals.length then vals.getD (a - addr).toNat (mem a) else mem a

/-- The addresses read by the loop
`for (const T* it = begin; it != stop; ++it) use(*it);`, in order; `none` when the loop
has not ended after `fuel` tests of its condition. -/
def iterAddrs (stop : Int) : Nat → Int → Option (List Int)
  | 0, _ => none
  | fuel + 1, it =>
    if it = stop then some [] else (iterAddrs stop fuel (it + 1)).map (fun rest => it :: rest)

/-- The addresses read by iterating an `ArrayProxy` from `begin()` to `end()`. -/
def ArrayProxy.iterateAddrs {T : Type} (fuel : Nat) (this : ArrayProxy T) : Option (List Int) :=
  iterAddrs this.end_ fuel this.begin

/-- The elements visited by iterating an `ArrayProxy` from `begin()` to `end()` over the
storage `mem`. -/
def ArrayProxy.iterate {T : Type} (mem : Int → T) (fuel : Nat) (this : ArrayProxy T) :
    Option (List T) :=
  (this.iterateAddrs fuel).map (List.map mem)

end detail

/-! ## The handle wrappers and their forwarding member functions -/

/-- `struct Device : public detail::Handle<::DkDevice>` -/
abbrev Device := detail.Handle .Device

/-- `struct MemBlock : public detail::Handle<::DkMemBlock>` -/
abbrev MemBlock := detail.Handle .MemBlock

/-- `struct CmdBuf : public detail::Handle<::DkCmdBuf>` -/
abbrev CmdBuf := detail.Handle .CmdBuf

/-- `struct Queue : public detail::Handle<::DkQueue>` -/
abbrev Queue := detail.Handle .Queue

/-- `struct Swapchain : public detail::Handle<::DkSwapchain>` -/
abbrev Swapchain := detail.Handle .Swapchain

/-- Modelled from the spec: the result code `DkResult` is declared in `deko3d.h`, which
is not part of the sources; the spec distinguishes success (a signaled fence), a
timeout and a driver error. -/
inductive DkResult where
  | Success
  | Fail
  | Timeout
deriving DecidableEq, Repr

/-- `DkBufExtents`, declared in `deko3d.h`: the (address, size) pair that the singular
binds take as `bufAddr` and `bufSize`. The wrapper only passes its address on. -/
structure DkBufExtents where
  addr : Nat
  size : Nat
deriving DecidableEq, Repr

/-- `DkViewport`, declared in `deko3d.h`; the wrapper only passes its address on, so the
record is kept as the words it consists of. -/
structure DkViewport where
  words : List Nat
deriving DecidableEq, Repr

/-- `DkScissor`, declared in `deko3d.h`; the wrapper only passes its address on, so the
record is kept as the words it consists of. -/
structure DkScissor where
  words : List Nat
deriving DecidableEq, Repr

/-- `DkResHandle`, declared in `deko3d.h`: a resource handle, passed by value. -/
abbrev DkResHandle := Nat

/-- The answers of the driver entry points that return a value; the wrapper hands
them back to its caller. -/
structure Driver where
  dkMemBlockGetSize : Nat → Nat
  dkMemBlockFlushCpuCache : Nat → Nat → Nat → DkResult
  dkMemBlockInvalidateCpuCache : Nat → Nat → Nat → DkResult
  dkFenceWait : Int → Int → DkResult
  dkCmdBufFinishList : Nat → Nat

/-- A driver that reports the size `size` for every memory block and answers `result`
to every cache maintenance call and fence wait. -/
def Driver.always (size : Nat) (result : DkResult) : Driver :=
  { dkMemBlockGetSize := fun _ => size
    dkMemBlockFlushCpuCache := fun _ _ _ => result
    dkMemBlockInvalidateCpuCache := fun _ _ _ => result
    dkFenceWait := fun _ _ => result
    dkCmdBufFinishList := fun _ => 0 }

namespace MemBlock

end MemBlock

namespace Fence

/-- `DK_OPAQUE_COMMON_MEMBERS(Fence)`: `constexpr Fence() noexcept : Opaque{} { }`; `size` is
the number of words of `DkFence`. -/
def default (size : Nat) : detail.Opaque := detail.Opaque.default size

/-- `DkResult Fence::wait(int64_t timeout_ns = -1) { return ::dkFenceWait(this, timeout_ns); }`;
`this` is the address of the fence. -/
def wait (drv : Driver) (this : Int) (timeout_ns : Int := -1) : DkResult × List DriverCall :=
  (drv.dkFenceWait this timeout_ns, [.dkFenceWait this timeout_ns])

end Fence

namespace CmdBuf

open detail

/-- `void CmdBuf::addMemory(DkMemBlock mem, uint32_t offset, uint32_t size)
{ ::dkCmdBufAddMemory(*this, mem, offset, size); }` -/
def addMemory (this : CmdBuf) (mem offset size : Nat) : List DriverCall :=
  [.dkCmdBufAddMemory this.toRaw mem offset size]

/-- `DkCmdList CmdBuf::finishList() { return ::dkCmdBufFinishList(*this); }` -/
def finishList (drv : Driver) (this : CmdBuf) : Nat × List DriverCall :=
  (drv.dkCmdBufFinishList this.toRaw, [.dkCmdBufFinishList this.toRaw])

/-- `void CmdBuf::clear() { ::dkCmdBufClear(*this); }` -/
def clear (this : CmdBuf) : List DriverCall := [.dkCmdBufClear this.toRaw]

/-- `void CmdBuf::bindUniformBuffers(DkStage stage, uint32_t firstId,
detail::ArrayProxy<DkBufExtents const> buffers)
{ ::dkCmdBufBindUniformBuffers(*this, stage, firstId, buffers.data(), buffers.size()); }` -/
def bindUniformBuffers (this : CmdBuf) (stage firstId : Nat)
    (buffers : ArrayProxy DkBufExtents) : List DriverCall :=
  [.dkCmdBufBindUniformBuffers this.toRaw stage firstId buffers.data buffers.size]

/-- `void CmdBuf::bindStorageBuffers(DkStage stage, uint32_t firstId,
detail::ArrayProxy<DkBufExtents const> buffers)
{ ::dkCmdBufBindStorageBuffers(*this, stage, firstId, buffers.data(), buffers.size()); }` -/
def bindStorageBuffers (this : CmdBuf) (stage firstId : Nat)
    (buffers : ArrayProxy DkBufExtents) : List DriverCall :=
  [.dkCmdBufBindStorageBuffers this.toRaw stage firstId buffers.data buffers.size]

/-- `void CmdBuf::bindTextures(DkStage stage, uint32_t firstId,
detail::ArrayProxy<DkResHandle const> handles)
{ ::dkCmdBufBindTextures(*this, stage, firstId, handles.data(), handles.size()); }` -/
def bindTextures (this : CmdBuf) (stage firstId : Nat)
    (handles : ArrayProxy DkResHandle) : List DriverCall :=
  [.dkCmdBufBindTextures this.toRaw stage firstId handles.data handles.size]

/-- `void CmdBuf::bindImages(DkStage stage, uint32_t firstId,
detail::ArrayProxy<DkResHandle const> handles)
{ ::dkCmdBufBindImages(*this, stage, firstId, handles.data(), handles.size()); }` -/
def bindImages (this : CmdBuf) (stage firstId : Nat)
    (handles : ArrayProxy DkResHandle) : List DriverCall :=
  [.dkCmdBufBindImages this.toRaw stage firstId handles.data handles.size]

/-- `void CmdBuf::bindVtxBuffers(uint32_t firstId, detail::ArrayProxy<DkBufExtents const> buffers)
{ ::dkCmdBufBindVtxBuffers(*this, firstId, buffers.data(), buffers.size()); }` -/
def bindVtxBuffers (this : CmdBuf) (firstId : Nat)
    (buffers : ArrayProxy DkBufExtents) : List DriverCall :=
  [.dkCmdBufBindVtxBuffers this.toRaw firstId buffers.data buffers.size]

/-- `void CmdBuf::setViewports(uint32_t firstId, detail::ArrayProxy<DkViewport const> viewports)
{ ::dkCmdBufSetViewports(*this, firstId, viewports.data(), viewports.size()); }` -/
def setViewports (this : CmdBuf) (firstId : Nat)
    (viewports : ArrayProxy DkViewport) : List DriverCall :=
  [.dkCmdBufSetViewports this.toRaw firstId viewports.data viewports.size]

/-- `void CmdBuf::setScissors(uint32_t firstId, detail::ArrayProxy<DkScissor const> scissors)
{ ::dkCmdBufSetScissors(*this, firstId, scissors.data(), scissors.size()); }` -/
def setScissors (this : CmdBuf) (firstId : Nat)
    (scissors : ArrayProxy DkScissor) : List DriverCall :=
  [.dkCmdBufSetScissors this.toRaw firstId scissors.data scissors.size]

/-- `void CmdBuf::clearColor(uint32_t targetId, uint32_t clearMask, const void* clearData)
{ ::dkCmdBufClearColor(*this, targetId, clearMask, clearData); }` -/
def clearColor (this : CmdBuf) (targetId clearMask : Nat) (clearData : Int) : List DriverCall :=
  [.dkCmdBufClearColor this.toRaw targetId clearMask clearData]

/-- `template <typename T> void CmdBuf::clearColor(uint32_t targetId, uint32_t clearMask,
T red = T{0}, T green = T{0}, T blue = T{0}, T alpha = T{0})`
`{ static_assert(sizeof(T) == 4, "Bad size for T"); T data[] = { red, green, blue, alpha };
::dkCmdBufClearColor(*this, targetId, clearMask, data); }`.
A value of `T` is kept as its bit pattern and `T{0}` as `0`; `sizeofT` is `sizeof(T)`;
`mem` is memory in elements of `T` and `data` the address of the local array. The
result is `none` when the `static_assert` rejects `T`, and otherwise memory with the
local array in place and the driver calls made. -/
def clearColorT (sizeofT : Nat) (mem : Int → Nat) (data : Int) (this : CmdBuf)
    (targetId clearMask : Nat) (red : Nat := 0) (green : Nat := 0) (blue : Nat := 0)
    (alpha : Nat := 0) : Option ((Int → Nat) × List DriverCall) :=
  if sizeofT = 4 then
    some (writeArray mem data [red, green, blue, alpha],
      [.dkCmdBufClearColor this.toRaw targetId clearMask data])
  else none

/-- `void CmdBuf::dispatchCompute(uint32_t numGroupsX, uint32_t numGroupsY, uint32_t numGroupsZ)
{ ::dkCmdBufDispatchCompute(*this, numGroupsX, numGroupsY, numGroupsZ); }` -/
def dispatchCompute (this : CmdBuf) (numGroupsX numGroupsY numGroupsZ : Nat) :
    List DriverCall :=
  [.dkCmdBufDispatchCompute this.toRaw numGroupsX numGroupsY numGroupsZ]

/-- `void CmdBuf::copyBuffer(DkGpuAddr srcAddr, DkGpuAddr dstAddr, uint32_t size)
{ ::dkCmdBufCopyBuffer(*this, srcAddr, dstAddr, size); }` -/
def copyBuffer (this : CmdBuf) (srcAddr dstAddr size : Nat) : List DriverCall :=
  [.dkCmdBufCopyBuffer this.toRaw srcAddr dstAddr size]

end CmdBuf

namespace Queue

/-- `void Queue::submitCommands(DkCmdList cmds) { ::dkQueueSubmitCommands(*this, cmds); }` -/
def submitCommands (this : Queue) (cmds : Nat) : List DriverCall :=
  [.dkQueueSubmitCommands this.toRaw cmds]

/-- `void Queue::flush() { ::dkQueueFlush(*this); }` -/
def flush (this : Queue) : List DriverCall := [.dkQueueFlush this.toRaw]

/-- `void Queue::waitIdle() { ::dkQueueWaitIdle(*this); }` -/
def waitIdle (this : Queue) : List DriverCall := [.dkQueueWaitIdle this.toRaw]

end Queue

/-! ## The driver side of the plural bind calls -/

/-- Client memory as the driver reads it through the array pointers it is given,
one address space per element type. -/
structure ClientMem where
  bufExtents : Int → DkBufExtents
  resHandles : Int → DkResHandle
  viewports : Int → DkViewport
  scissors : Int → DkScissor

namespace Spec

/-- Modelled from the spec: the binding state a command buffer records, which lives in
the driver (`dkCmdBufBind*`, `dkCmdBufSet*` are not part of the sources). Each table
maps a slot id to the record bound there; the per-stage tables are keyed by the stage
first. -/
structure Bindings where
  uniformBuffers : Nat → Nat → Option DkBufExtents
  storageBuffers : Nat → Nat → Option DkBufExtents
  textures : Nat → Nat → Option DkResHandle
  images : Nat → Nat → Option DkResHandle
  vtxBuffers : Nat → Option DkBufExtents
  viewports : Nat → Option DkViewport
  scissors : Nat → Option DkScissor

/-- Modelled from the spec: binding one slot overwrites that slot and no other
("each record addressed independently, never aliasing"). -/
def bindSlot {α : Type} (tbl : Nat → Option α) (id : Nat) (x : α) : Nat → Option α :=
  fun slot => if slot = id then some x else tbl slot

/-- Modelled from the spec: a plural bind of the driver binds "a contiguous run of N
slots starting at `firstId`", one record after the other. -/
def bindSlots {α : Type} (tbl : Nat → Option α) (firstId : Nat) : List α → Nat → Option α
  | [] => tbl
  | x :: xs => bindSlots (bindSlot tbl firstId x) (firstId + 1) xs

/-- Modelled from the spec: the per-stage tables with the table of one stage replaced. -/
def setStage {α : Type} (tbls : Nat → Nat → Option α) (stage : Nat)
    (tbl : Nat → Option α) : Nat → Nat → Option α :=
  fun st => if st = stage then tbl else tbls st

/-- Modelled from the spec: what a plural bind call does to the binding state of the
command buffer it is recorded into; the driver reads the `N` records from the array it
is pointed at. Other driver calls leave the binding state alone. -/
def Bindings.exec (mem : ClientMem) (b : Bindings) : DriverCall → Bindings
  | .dkCmdBufBindUniformBuffers _ stage firstId buffers n =>
    { b with uniformBuffers := (setStage b.uniformBuffers stage
        (bindSlots (b.uniformBuffers stage) firstId (detail.readArray mem.bufExtents buffers n))) }
  | .dkCmdBufBindStorageBuffers _ stage firstId buffers n =>
    { b with storageBuffers := (setStage b.storageBuffers stage
        (bindSlots (b.storageBuffers stage) firstId (detail.readArray mem.bufExtents buffers n))) }
  | .dkCmdBufBindTextures _ stage firstId handles n =>
    { b with textures := (setStage b.textures stage
        (bindSlots (b.textures stage) firstId (detail.readArray mem.resHandles handles n))) }
  | .dkCmdBufBindImages _ stage firstId handles n =>
    { b with images := (setStage b.images stage
        (bindSlots (b.images stage) firstId (detail.readArray mem.resHandles handles n))) }
  | .dkCmdBufBindVtxBuffers _ firstId buffers n =>
    { b with vtxBuffers :=
        (bindSlots b.vtxBuffers firstId (detail.readArray mem.bufExtents buffers n)) }
  | .dkCmdBufSetViewports _ firstId viewports n =>
    { b with viewports :=
        (bindSlots b.viewports firstId (detail.readArray mem.viewports viewports n)) }
  | .dkCmdBufSetScissors _ firstId scissors n =>
    { b with scissors :=
        (bindSlots b.scissors firstId (detail.readArray mem.scissors scissors n)) }
  | _ => b

/-- Modelled from the spec: the binding state after the driver calls of `calls`, in
order. -/
def Bindings.run (mem : ClientMem) (b : Bindings) (calls : List DriverCall) : Bindings :=
  calls.foldl (Bindings.exec mem) b

end Spec

/-- The elements an `ArrayProxy` designates in the storage `mem`: `size()` elements
from `data()` on. -/
def detail.ArrayProxy.toList {T : Type} (mem : Int → T) (this : detail.ArrayProxy T) : List T :=
  detail.readArray mem this.data this.size

/-- The table `after` is `before` with the slots `firstId`, `firstId + 1`, ... rebound
to the elements of `elems`, slot `firstId + i` to the `i`-th of them, and with every
other slot as it was. -/
def RunBound {α : Type} (before after : Nat → Option α) (firstId : Nat) (elems : List α) :
    Prop :=
  ∀ slot, after slot =
    if firstId ≤ slot ∧ slot < firstId + elems.length then elems[slot - firstId]?
    else before slot

/-- The per-stage tables `after` are `before` with `RunBound` at `stage` and every other
stage as it was. -/
def StageRunBound {α : Type} (before after : Nat → Nat → Option α) (stage firstId : Nat)
    (elems : List α) : Prop :=
  RunBound (before stage) (after stage) firstId elems ∧
    ∀ st, st ≠ stage → after st = before st

/-! ## Makers and state builders -/

/-- A C enumeration of `deko3d.h` (`DkImageType`, `DkPolygonMode`, `DkCompareOp`, ...),
kept as the integer value of the enumerator. -/
abbrev CEnum := Nat

/-- A `float`, kept as its bit pattern: the builders only store it. -/
abbrev CFloat := Nat

/-- `struct DeviceMaker : public ::DkDeviceMaker`. The base struct is declared in `deko3d.h`;
its fields are taken to be the ones the wrapper names, each a field of its own. Pointers are
addresses. -/
structure DeviceMaker where
  userData : Nat
  cbError : Nat
  cbAlloc : Nat
  cbFree : Nat
  flags : Nat
deriving DecidableEq, Repr

namespace DeviceMaker

/-- `DeviceMaker& setUserData(void* userData) { this->userData = userData; return *this; }` -/
def setUserData (this : DeviceMaker) (userData : Nat) : DeviceMaker :=
  { this with userData := userData }

/-- `DeviceMaker& setCbError(DkErrorFunc cbError) { this->cbError = cbError; return *this; }` -/
def setCbError (this : DeviceMaker) (cbError : Nat) : DeviceMaker :=
  { this with cbError := cbError }

/-- `DeviceMaker& setCbAlloc(DkAllocFunc cbAlloc) { this->cbAlloc = cbAlloc; return *this; }` -/
def setCbAlloc (this : DeviceMaker) (cbAlloc : Nat) : DeviceMaker :=
  { this with cbAlloc := cbAlloc }

/-- `DeviceMaker& setCbFree(DkFreeFunc cbFree) { this->cbFree = cbFree; return *this; }` -/
def setCbFree (this : DeviceMaker) (cbFree : Nat) : DeviceMaker :=
  { this with cbFree := cbFree }

/-- `DeviceMaker& setFlags(uint32_t flags) { this->flags = flags; return *this; }` -/
def setFlags (this : DeviceMaker) (flags : Nat) : DeviceMaker :=
  { this with flags := flags }

end DeviceMaker

/-- `struct MemBlockMaker : public ::DkMemBlockMaker`. The base struct is declared in `deko3d.h`;
its fields are taken to be the ones the wrapper names, each a field of its own. Pointers are
addresses. -/
structure MemBlockMaker where
  device : Nat
  size : Nat
  flags : Nat
  storage : Nat
deriving DecidableEq, Repr

namespace MemBlockMaker

/-- `MemBlockMaker& setFlags(uint32_t flags) { this->flags = flags; return *this; }` -/
def setFlags (this : MemBlockMaker) (flags : Nat) : MemBlockMaker :=
  { this with flags := flags }

/-- `MemBlockMaker& setStorage(void* storage) { this->storage = storage; return *this; }` -/
def setStorage (this : MemBlockMaker) (storage : Nat) : MemBlockMaker :=
  { this with storage := storage }

end MemBlockMaker

/-- `struct CmdBufMaker : public ::DkCmdBufMaker`. The base struct is declared in `deko3d.h`;
its fields are taken to be the ones the wrapper names, each a field of its own. Pointers are
addresses. -/
structure CmdBufMaker where
  device : Nat
  userData : Nat
  cbAddMem : Nat
deriving DecidableEq, Repr

namespace CmdBufMaker

/-- `CmdBufMaker& setUserData(void* userData) { this->userData = userData; return *this; }` -/
def setUserData (this : CmdBufMaker) (userData : Nat) : CmdBufMaker :=
  { this with userData := userData }

/-- `CmdBufMaker& setCbAddMem(DkCmdBufAddMemFunc cbAddMem) { this->cbAddMem = cbAddMem; return *this; }` -/
def setCbAddMem (this : CmdBufMaker) (cbAddMem : Nat) : CmdBufMaker :=
  { this with cbAddMem := cbAddMem }

end CmdBufMaker

/-- `struct QueueMaker : public ::DkQueueMaker`. The base struct is declared in `deko3d.h`;
its fields are taken to be the ones the wrapper names, each a field of its own. Pointers are
addresses. -/
structure QueueMaker where
  device : Nat
  flags : Nat
  commandMemorySize : Nat
  flushThreshold : Nat
  perWarpScratchMemorySize : Nat
  maxConcurrentComputeJobs : Nat
deriving DecidableEq, Repr

namespace QueueMaker

/-- `QueueMaker& setFlags(uint32_t flags) { this->flags = flags; return *this; }` -/
def setFlags (this : QueueMaker) (flags : Nat) : QueueMaker :=
  { this with flags := flags }

/-- `QueueMaker& setCommandMemorySize(uint32_t commandMemorySize) { this->commandMemorySize = commandMemorySize; return *this; }` -/
def setCommandMemorySize (this : QueueMaker) (commandMemorySize : Nat) : QueueMaker :=
  { this with commandMemorySize := commandMemorySize }

/-- `QueueMaker& setFlushThreshold(uint32_t flushThreshold) { this->flushThreshold = flushThreshold; return *this; }` -/
def setFlushThreshold (this : QueueMaker) (flushThreshold : Nat) : QueueMaker :=
  { this with flushThreshold := flushThreshold }

/-- `QueueMaker& setPerWarpScratchMemorySize(uint32_t perWarpScratchMemorySize) { this->perWarpScratchMemorySize = perWarpScratchMemorySize; return *this; }` -/
def setPerWarpScratchMemorySize (this : QueueMaker) (perWarpScratchMemorySize : Nat) : QueueMaker :=
  { this with perWarpScratchMemorySize := perWarpScratchMemorySize }

/-- `QueueMaker& setMaxConcurrentComputeJobs(uint32_t maxConcurrentComputeJobs) { this->maxConcurrentComputeJobs = maxConcurrentComputeJobs; return *this; }` -/
def setMaxConcurrentComputeJobs (this : QueueMaker) (maxConcurrentComputeJobs : Nat) : QueueMaker :=
  { this with maxConcurrentComputeJobs := maxConcurrentComputeJobs }

end QueueMaker

/-- `struct ShaderMaker : public ::DkShaderMaker`. The base struct is declared in `deko3d.h`;
its fields are taken to be the ones the wrapper names, each a field of its own. Pointers are
addresses. -/
structure ShaderMaker where
  codeMem : Nat
  codeOffset : Nat
  control : Nat
  programId : Nat
deriving DecidableEq, Repr

namespace ShaderMaker

/-- `ShaderMaker& setControl(const void* control) { this->control = control; return *this; }` -/
def setControl (this : ShaderMaker) (control : Nat) : ShaderMaker :=
  { this with control := control }

/-- `ShaderMaker& setProgramId(uint32_t programId) { this->programId = programId; return *this; }` -/
def setProgramId (this : ShaderMaker) (programId : Nat) : ShaderMaker :=
  { this with programId := programId }

end ShaderMaker

/-- `struct ImageLayoutMaker : public ::DkImageLayoutMaker`. The base struct is declared in `deko3d.h`;
its fields are taken to be the ones the wrapper names, each a field of its own. Pointers are
addresses. -/
structure ImageLayoutMaker where
  device : Nat
  type : CEnum
  flags : Nat
  format : CEnum
  msMode : CEnum
  dimensions : Nat × Nat × Nat
  mipLevels : Nat
  pitchStride : Nat
  tileSize : CEnum
deriving DecidableEq, Repr

namespace ImageLayoutMaker

/-- `ImageLayoutMaker& setType(DkImageType type) { this->type = type; return *this; }` -/
def setType (this : ImageLayoutMaker) (type : CEnum) : ImageLayoutMaker :=
  { this with type := type }

/-- `ImageLayoutMaker& setFlags(uint32_t flags) { this->flags = flags; return *this; }` -/
def setFlags (this : ImageLayoutMaker) (flags : Nat) : ImageLayoutMaker :=
  { this with flags := flags }

/-- `ImageLayoutMaker& setFormat(DkImageFormat format) { this->format = format; return *this; }` -/
def setFormat (this : ImageLayoutMaker) (format : CEnum) : ImageLayoutMaker :=
  { this with format := format }

/-- `ImageLayoutMaker& setMsMode(DkMsMode msMode) { this->msMode = msMode; return *this; }` -/
def setMsMode (this : ImageLayoutMaker) (msMode : CEnum) : ImageLayoutMaker :=
  { this with msMode := msMode }

/-- `ImageLayoutMaker& setMipLevels(uint32_t mipLevels) { this->mipLevels = mipLevels; return *this; }` -/
def setMipLevels (this : ImageLayoutMaker) (mipLevels : Nat) : ImageLayoutMaker :=
  { this with mipLevels := mipLevels }

/-- `ImageLayoutMaker& setPitchStride(uint32_t pitchStride) { this->pitchStride = pitchStride; return *this; }` -/
def setPitchStride (this : ImageLayoutMaker) (pitchStride : Nat) : ImageLayoutMaker :=
  { this with pitchStride := pitchStride }

/-- `ImageLayoutMaker& setTileSize(DkTileSize tileSize) { this->tileSize = tileSize; return *this; }` -/
def setTileSize (this : ImageLayoutMaker) (tileSize : CEnum) : ImageLayoutMaker :=
  { this with tileSize := tileSize }

/-- `ImageLayoutMaker& setDimensions(uint32_t width, uint32_t height = 0, uint32_t depth = 0)`,
which assigns `dimensions[0]`, `dimensions[1]` and `dimensions[2]`. -/
def setDimensions (this : ImageLayoutMaker) (width : Nat) (height : Nat := 0) (depth : Nat := 0) :
    ImageLayoutMaker :=
  { this with dimensions := (width, height, depth) }

end ImageLayoutMaker

/-- `struct RasterizerState : public ::DkRasterizerState`. The base struct is declared in `deko3d.h`;
its fields are taken to be the ones the wrapper names, each a field of its own. Pointers are
addresses. -/
structure RasterizerState where
  depthClampEnable : Bool
  rasterizerDiscardEnable : Bool
  polygonMode : CEnum
  cullMode : CEnum
  frontFace : CEnum
  depthBiasEnable : Bool
  depthBiasConstantFactor : CFloat
  depthBiasClamp : CFloat
  depthBiasSlopeFactor : CFloat
  lineWidth : CFloat
deriving DecidableEq, Repr

namespace RasterizerState

/-- `RasterizerState& setDepthClampEnable(bool enable) { this->depthClampEnable = enable; return *this; }` -/
def setDepthClampEnable (this : RasterizerState) (enable : Bool) : RasterizerState :=
  { this with depthClampEnable := enable }

/-- `RasterizerState& setRasterizerDiscardEnable(bool enable) { this->rasterizerDiscardEnable = enable; return *this; }` -/
def setRasterizerDiscardEnable (this : RasterizerState) (enable : Bool) : RasterizerState :=
  { this with rasterizerDiscardEnable := enable }

/-- `RasterizerState& setPolygonMode(DkPolygonMode polygonMode) { this->polygonMode = polygonMode; return *this; }` -/
def setPolygonMode (this : RasterizerState) (polygonMode : CEnum) : RasterizerState :=
  { this with polygonMode := polygonMode }

/-- `RasterizerState& setCullMode(DkFace cullMode) { this->cullMode = cullMode; return *this; }` -/
def setCullMode (this : RasterizerState) (cullMode : CEnum) : RasterizerState :=
  { this with cullMode := cullMode }

/-- `RasterizerState& setFrontFace(DkFrontFace frontFace) { this->frontFace = frontFace; return *this; }` -/
def setFrontFace (this : RasterizerState) (frontFace : CEnum) : RasterizerState :=
  { this with frontFace := frontFace }

/-- `RasterizerState& setDepthBiasEnable(bool enable) { this->depthBiasEnable = enable; return *this; }` -/
def setDepthBiasEnable (this : RasterizerState) (enable : Bool) : RasterizerState :=
  { this with depthBiasEnable := enable }

/-- `RasterizerState& setDepthBiasConstantFactor(float value) { this->depthBiasConstantFactor = value; return *this; }` -/
def setDepthBiasConstantFactor (this : RasterizerState) (value : CFloat) : RasterizerState :=
  { this with depthBiasConstantFactor := value }

/-- `RasterizerState& setDepthBiasClamp(float value) { this->depthBiasClamp = value; return *this; }` -/
def setDepthBiasClamp (this : RasterizerState) (value : CFloat) : RasterizerState :=
  { this with depthBiasClamp := value }

/-- `RasterizerState& setDepthBiasSlopeFactor(float value) { this->depthBiasSlopeFactor = value; return *this; }` -/
def setDepthBiasSlopeFactor (this : RasterizerState) (value : CFloat) : RasterizerState :=
  { this with depthBiasSlopeFactor := value }

/-- `RasterizerState& setLineWidth(float width) { this->lineWidth = width; return *this; }` -/
def setLineWidth (this : RasterizerState) (width : CFloat) : RasterizerState :=
  { this with lineWidth := width }

end RasterizerState

/-- `struct DepthStencilState : public ::DkDepthStencilState`. The base struct is declared in `deko3d.h`;
its fields are taken to be the ones the wrapper names, each a field of its own. Pointers are
addresses. -/
structure DepthStencilState where
  depthTestEnable : Bool
  depthWriteEnable : Bool
  stencilTestEnable : Bool
  depthCompareOp : CEnum
  stencilFrontFailOp : CEnum
  stencilFrontPassOp : CEnum
  stencilFrontDepthFailOp : CEnum
  stencilFrontCompareOp : CEnum
  stencilBackFailOp : CEnum
  stencilBackPassOp : CEnum
  stencilBackDepthFailOp : CEnum
  stencilBackCompareOp : CEnum
deriving DecidableEq, Repr

namespace DepthStencilState

/-- `DepthStencilState& setDepthTestEnable(bool enable) { this->depthTestEnable = enable; return *this; }` -/
def setDepthTestEnable (this : DepthStencilState) (enable : Bool) : DepthStencilState :=
  { this with depthTestEnable := enable }

/-- `DepthStencilState& setDepthWriteEnable(bool enable) { this->depthWriteEnable = enable; return *this; }` -/
def setDepthWriteEnable (this : DepthStencilState) (enable : Bool) : DepthStencilState :=
  { this with depthWriteEnable := enable }

/-- `DepthStencilState& setStencilTestEnable(bool enable) { this->stencilTestEnable = enable; return *this; }` -/
def setStencilTestEnable (this : DepthStencilState) (enable : Bool) : DepthStencilState :=
  { this with stencilTestEnable := enable }

/-- `DepthStencilState& setDepthCompareOp(DkCompareOp op) { this->depthCompareOp = op; return *this; }` -/
def setDepthCompareOp (this : DepthStencilState) (op : CEnum) : DepthStencilState :=
  { this with depthCompareOp := op }

/-- `DepthStencilState& setStencilFrontFailOp(DkStencilOp op) { this->stencilFrontFailOp = op; return *this; }` -/
def setStencilFrontFailOp (this : DepthStencilState) (op : CEnum) : DepthStencilState :=
  { this with stencilFrontFailOp := op }

/-- `DepthStencilState& setStencilFrontPassOp(DkStencilOp op) { this->stencilFrontPassOp = op; return *this; }` -/
def setStencilFrontPassOp (this : DepthStencilState) (op : CEnum) : DepthStencilState :=
  { this with stencilFrontPassOp := op }

/-- `DepthStencilState& setStencilFrontDepthFailOp(DkStencilOp op) { this->stencilFrontDepthFailOp = op; return *this; }` -/
def setStencilFrontDepthFailOp (this : DepthStencilState) (op : CEnum) : DepthStencilState :=
  { this with stencilFrontDepthFailOp := op }

/-- `DepthStencilState& setStencilFrontCompareOp(DkCompareOp op) { this->stencilFrontCompareOp = op; return *this; }` -/
def setStencilFrontCompareOp (this : DepthStencilState) (op : CEnum) : DepthStencilState :=
  { this with stencilFrontCompareOp := op }

/-- `DepthStencilState& setStencilBackFailOp(DkStencilOp op) { this->stencilBackFailOp = op; return *this; }` -/
def setStencilBackFailOp (this : DepthStencilState) (op : CEnum) : DepthStencilState :=
  { this with stencilBackFailOp := op }

/-- `DepthStencilState& setStencilBackPassOp(DkStencilOp op) { this->stencilBackPassOp = op; return *this; }` -/
def setStencilBackPassOp (this : DepthStencilState) (op : CEnum) : DepthStencilState :=
  { this with stencilBackPassOp := op }

/-- `DepthStencilState& setStencilBackDepthFailOp(DkStencilOp op) { this->stencilBackDepthFailOp = op; return *this; }` -/
def setStencilBackDepthFailOp (this : DepthStencilState) (op : CEnum) : DepthStencilState :=
  { this with stencilBackDepthFailOp := op }

/-- `DepthStencilState& setStencilBackCompareOp(DkCompareOp op) { this->stencilBackCompareOp = op; return *this; }` -/
def setStencilBackCompareOp (this : DepthStencilState) (op : CEnum) : DepthStencilState :=
  { this with stencilBackCompareOp := op }

end DepthStencilState

/-- The enumerators of `DkSwizzle` (declared in `deko3d.h`) that the wrapper names. -/
inductive DkSwizzle where
  | Red
  | Green
  | Blue
  | Alpha
deriving DecidableEq, Repr

/-- `struct ImageView : public ::DkImageView`. The base struct is declared in `deko3d.h`;
its fields are taken to be the ones the wrapper names, each a field of its own, and the
image the view is constructed from. `swizzle` is the array `swizzle[4]`. -/
structure ImageView where
  pImage : Int
  type : CEnum
  format : CEnum
  swizzle : DkSwizzle × DkSwizzle × DkSwizzle × DkSwizzle
  dsSource : CEnum
  layerOffset : Nat
  layerCount : Nat
  mipLevelOffset : Nat
  mipLevelCount : Nat
deriving DecidableEq, Repr

namespace ImageView

/-- `void setType(DkImageType type = DkImageType_None) noexcept { this->type = type; }`;
the enumerator `DkImageType_None` of `deko3d.h` is a parameter. -/
def setType (DkImageType_None : CEnum) (this : ImageView) (type : CEnum := DkImageType_None) :
    ImageView :=
  { this with type := type }

/-- `void setFormat(DkImageFormat format = DkImageFormat_None) noexcept
{ this->format = format; }`; the enumerator `DkImageFormat_None` of `deko3d.h` is a
parameter. -/
def setFormat (DkImageFormat_None : CEnum) (this : ImageView)
    (format : CEnum := DkImageFormat_None) : ImageView :=
  { this with format := format }

/-- `void setSwizzle(DkSwizzle x = DkSwizzle_Red, DkSwizzle y = DkSwizzle_Green,
DkSwizzle z = DkSwizzle_Blue, DkSwizzle w = DkSwizzle_Alpha) noexcept`, which assigns
`swizzle[0]`, `swizzle[1]`, `swizzle[2]` and `swizzle[3]`. -/
def setSwizzle (this : ImageView) (x : DkSwizzle := .Red) (y : DkSwizzle := .Green)
    (z : DkSwizzle := .Blue) (w : DkSwizzle := .Alpha) : ImageView :=
  { this with swizzle := (x, y, z, w) }

/-- `void setDsSource(DkDsSource dsSource) noexcept { this->dsSource = dsSource; }` -/
def setDsSource (this : ImageView) (dsSource : CEnum) : ImageView :=
  { this with dsSource := dsSource }

/-- `void setLayers(uint16_t layerOffset = 0, uint16_t layerCount = 0) noexcept
{ this->layerOffset = layerOffset; this->layerCount = layerCount; }` -/
def setLayers (this : ImageView) (layerOffset : Nat := 0) (layerCount : Nat := 0) : ImageView :=
  { this with layerOffset := layerOffset, layerCount := layerCount }

/-- `void setMipLevels(uint8_t mipLevelOffset = 0, uint8_t mipLevelCount = 0) noexcept
{ this->mipLevelOffset = mipLevelOffset; this->mipLevelCount = mipLevelCount; }` -/
def setMipLevels (this : ImageView) (mipLevelOffset : Nat := 0) (mipLevelCount : Nat := 0) :
    ImageView :=
  { this with mipLevelOffset := mipLevelOffset, mipLevelCount := mipLevelCount }

end ImageView

/-- A single-field setter of the record `R` together with the field it names: `get`
reads the field, `set` is the member function (the record it returns is `*this` after
the assignment). -/
structure FieldSetter (R : Type) where
  A : Type
  get : R → A
  set : R → A → R

/-- A field of the record `R`. -/
structure FieldReader (R : Type) where
  A : Type
  get : R → A

namespace FieldSetter

variable {R : Type}

/-- The setter stores its argument in the field it names. -/
def Stores (s : FieldSetter R) : Prop := ∀ r a, s.get (s.set r a) = a

/-- The setter leaves the field read by `get` unchanged. -/
def Keeps {B : Type} (s : FieldSetter R) (get : R → B) : Prop := ∀ r a, get (s.set r a) = get r

/-- Two calls of the setter leave the last value. -/
def LastWins (s : FieldSetter R) : Prop := ∀ r a b, s.set (s.set r a) b = s.set r b

/-- The two setters commute. -/
def Commutes (s t : FieldSetter R) : Prop := ∀ r a b, t.set (s.set r a) b = s.set (t.set r b) a

end FieldSetter

/-- The laws of the single-field setters `setters` of a record whose remaining fields
are `others`: every setter stores its argument in its field, leaves the last value when
called twice, and leaves every remaining field and the field of every other setter
unchanged; setters of different fields commute; and the fields listed are all the fields
of the record (two records that agree on them are equal). -/
def SetterLaws {R : Type} (setters : List (FieldSetter R)) (others : List (FieldReader R)) :
    Prop :=
  (∀ s ∈ setters, s.Stores ∧ s.LastWins ∧ ∀ f ∈ others, s.Keeps f.get) ∧
  setters.Pairwise (fun s t => s.Keeps t.get ∧ t.Keeps s.get ∧ s.Commutes t) ∧
  ∀ r r0 : R, (∀ s ∈ setters, s.get r = s.get r0) → (∀ f ∈ others, f.get r = f.get r0) → r = r0

/-- The single-field setters of `DeviceMaker`, each with the field it names. -/
def DeviceMaker.setters : List (FieldSetter DeviceMaker) :=
  [⟨_, DeviceMaker.userData, DeviceMaker.setUserData⟩,
   ⟨_, DeviceMaker.cbError, DeviceMaker.setCbError⟩,
   ⟨_, DeviceMaker.cbAlloc, DeviceMaker.setCbAlloc⟩,
   ⟨_, DeviceMaker.cbFree, DeviceMaker.setCbFree⟩,
   ⟨_, DeviceMaker.flags, DeviceMaker.setFlags⟩]

/-- The fields of `DeviceMaker` without a single-field setter. -/
def DeviceMaker.others : List (FieldReader DeviceMaker) :=
  []

/-- The single-field setters of `MemBlockMaker`, each with the field it names. -/
def MemBlockMaker.setters : List (FieldSetter MemBlockMaker) :=
  [⟨_, MemBlockMaker.flags, MemBlockMaker.setFlags⟩,
   ⟨_, MemBlockMaker.storage, MemBlockMaker.setStorage⟩]

/-- The fields of `MemBlockMaker` without a single-field setter. -/
def MemBlockMaker.others : List (FieldReader MemBlockMaker) :=
  [⟨_, MemBlockMaker.device⟩, ⟨_, MemBlockMaker.size⟩]

/-- The single-field setters of `CmdBufMaker`, each with the field it names. -/
def CmdBufMaker.setters : List (FieldSetter CmdBufMaker) :=
  [⟨_, CmdBufMaker.userData, CmdBufMaker.setUserData⟩,
   ⟨_, CmdBufMaker.cbAddMem, CmdBufMaker.setCbAddMem⟩]

/-- The fields of `CmdBufMaker` without a single-field setter. -/
def CmdBufMaker.others : List (FieldReader CmdBufMaker) :=
  [⟨_, CmdBufMaker.device⟩]

/-- The single-field setters of `QueueMaker`, each with the field it names. -/
def QueueMaker.setters : List (FieldSetter QueueMaker) :=
  [⟨_, QueueMaker.flags, QueueMaker.setFlags⟩,
   ⟨_, QueueMaker.commandMemorySize, QueueMaker.setCommandMemorySize⟩,
   ⟨_, QueueMaker.flushThreshold, QueueMaker.setFlushThreshold⟩,
   ⟨_, QueueMaker.perWarpScratchMemorySize, QueueMaker.setPerWarpScratchMemorySize⟩,
   ⟨_, QueueMaker.maxConcurrentComputeJobs, QueueMaker.setMaxConcurrentComputeJobs⟩]

/-- The fields of `QueueMaker` without a single-field setter. -/
def QueueMaker.others : List (FieldReader QueueMaker) :=
  [⟨_, QueueMaker.device⟩]

/-- The single-field setters of `ShaderMaker`, each with the field it names. -/
def ShaderMaker.setters : List (FieldSetter ShaderMaker) :=
  [⟨_, ShaderMaker.control, ShaderMaker.setControl⟩,
   ⟨_, ShaderMaker.programId, ShaderMaker.setProgramId⟩]

/-- The fields of `ShaderMaker` without a single-field setter. -/
def ShaderMaker.others : List (FieldReader ShaderMaker) :=
  [⟨_, ShaderMaker.codeMem⟩, ⟨_, ShaderMaker.codeOffset⟩]

/-- The single-field setters of `ImageLayoutMaker`, each with the field it names. -/
def ImageLayoutMaker.setters : List (FieldSetter ImageLayoutMaker) :=
  [⟨_, ImageLayoutMaker.type, ImageLayoutMaker.setType⟩,
   ⟨_, ImageLayoutMaker.flags, ImageLayoutMaker.setFlags⟩,
   ⟨_, ImageLayoutMaker.format, ImageLayoutMaker.setFormat⟩,
   ⟨_, ImageLayoutMaker.msMode, ImageLayoutMaker.setMsMode⟩,
   ⟨_, ImageLayoutMaker.mipLevels, ImageLayoutMaker.setMipLevels⟩,
   ⟨_, ImageLayoutMaker.pitchStride, ImageLayoutMaker.setPitchStride⟩,
   ⟨_, ImageLayoutMaker.tileSize, ImageLayoutMaker.setTileSize⟩]

/-- The fields of `ImageLayoutMaker` without a single-field setter. -/
def ImageLayoutMaker.others : List (FieldReader ImageLayoutMaker) :=
  [⟨_, ImageLayoutMaker.device⟩, ⟨_, ImageLayoutMaker.dimensions⟩]

/-- The single-field setters of `RasterizerState`, each with the field it names. -/
def RasterizerState.setters : List (FieldSetter RasterizerState) :=
  [⟨_, RasterizerState.depthClampEnable, RasterizerState.setDepthClampEnable⟩,
   ⟨_, RasterizerState.rasterizerDiscardEnable, RasterizerState.setRasterizerDiscardEnable⟩,
   ⟨_, RasterizerState.polygonMode, RasterizerState.setPolygonMode⟩,
   ⟨_, RasterizerState.cullMode, RasterizerState.setCullMode⟩,
   ⟨_, RasterizerState.frontFace, RasterizerState.setFrontFace⟩,
   ⟨_, RasterizerState.depthBiasEnable, RasterizerState.setDepthBiasEnable⟩,
   ⟨_, RasterizerState.depthBiasConstantFactor, RasterizerState.setDepthBiasConstantFactor⟩,
   ⟨_, RasterizerState.depthBiasClamp, RasterizerState.setDepthBiasClamp⟩,
   ⟨_, RasterizerState.depthBiasSlopeFactor, RasterizerState.setDepthBiasSlopeFactor⟩,
   ⟨_, RasterizerState.lineWidth, RasterizerState.setLineWidth⟩]

/-- The fields of `RasterizerState` without a single-field setter. -/
def RasterizerState.others : List (FieldReader RasterizerState) :=
  []

/-- The single-field setters of `DepthStencilState`, each with the field it names. -/
def DepthStencilState.setters : List (FieldSetter DepthStencilState) :=
  [⟨_, DepthStencilState.depthTestEnable, DepthStencilState.setDepthTestEnable⟩,
   ⟨_, DepthStencilState.depthWriteEnable, DepthStencilState.setDepthWriteEnable⟩,
   ⟨_, DepthStencilState.stencilTestEnable, DepthStencilState.setStencilTestEnable⟩,
   ⟨_, DepthStencilState.depthCompareOp, DepthStencilState.setDepthCompareOp⟩,
   ⟨_, DepthStencilState.stencilFrontFailOp, DepthStencilState.setStencilFrontFailOp⟩,
   ⟨_, DepthStencilState.stencilFrontPassOp, DepthStencilState.setStencilFrontPassOp⟩,
   ⟨_, DepthStencilState.stencilFrontDepthFailOp, DepthStencilState.setStencilFrontDepthFailOp⟩,
   ⟨_, DepthStencilState.stencilFrontCompareOp, DepthStencilState.setStencilFrontCompareOp⟩,
   ⟨_, DepthStencilState.stencilBackFailOp, DepthStencilState.setStencilBackFailOp⟩,
   ⟨_, DepthStencilState.stencilBackPassOp, DepthStencilState.setStencilBackPassOp⟩,
   ⟨_, DepthStencilState.stencilBackDepthFailOp, DepthStencilState.setStencilBackDepthFailOp⟩,
   ⟨_, DepthStencilState.stencilBackCompareOp, DepthStencilState.setStencilBackCompareOp⟩]

/-- The fields of `DepthStencilState` without a single-field setter. -/
def DepthStencilState.others : List (FieldReader DepthStencilState) :=
  []

/-! ## The driver side of command memory, queues and fences -/

namespace Spec

/-- Modelled from the spec: one memory range attached to a command buffer ("each: owning
MemoryBlock, offset, size"), with the number of its bytes consumed by recording. -/
structure CmdRange where
  mem : Nat
  offset : Nat
  size : Nat
  used : Nat
deriving DecidableEq, Repr

/-- Modelled from the spec: the "remaining capacity" of an attached range, its bytes
still free for recording. -/
def CmdRange.remaining (r : CmdRange) : Nat := r.size - r.used

/-- Modelled from the spec: the command memory of a command buffer (the encoder is driver
code, not part of the sources): the "ordered list of attached memory ranges", the bytes
consumed by recording since creation or the last `clear`, and the "needs more memory"
condition. -/
structure CmdMem where
  ranges : List CmdRange
  consumed : Nat
  needsMemory : Bool
deriving DecidableEq, Repr

/-- Modelled from the spec: a command buffer as "created by a maker", with nothing
attached and nothing recorded. -/
def CmdMem.fresh : CmdMem := ⟨[], 0, false⟩

/-- Modelled from the spec: the available recording capacity, the bytes still free in the
attached ranges. -/
def CmdMem.available (m : CmdMem) : Nat := (m.ranges.map CmdRange.remaining).sum

/-- Modelled from the spec: an instruction of `n` bytes goes into the first attached range
"with enough remaining capacity"; it does not straddle two ranges. `none` when no
attached range can take it. -/
def place (n : Nat) : List CmdRange → Option (List CmdRange)
  | [] => none
  | r :: rs =>
    if n ≤ r.remaining then some ({ r with used := r.used + n } :: rs)
    else (place n rs).map (fun rs1 => r :: rs1)

/-- Modelled from the spec: the "encoding calls", the driver calls that encode an
instruction into the command buffer, among the calls embedded here (binds, setters,
clear, dispatch and copy). -/
def isRecording : DriverCall → Bool
  | .dkCmdBufBindUniformBuffers .. => true
  | .dkCmdBufBindStorageBuffers .. => true
  | .dkCmdBufBindTextures .. => true
  | .dkCmdBufBindImages .. => true
  | .dkCmdBufBindVtxBuffers .. => true
  | .dkCmdBufSetViewports .. => true
  | .dkCmdBufSetScissors .. => true
  | .dkCmdBufClearColor .. => true
  | .dkCmdBufDispatchCompute .. => true
  | .dkCmdBufCopyBuffer .. => true
  | _ => false

/-- Modelled from the spec: one driver call on the command memory of the command buffer
it addresses. `addMemory` "appends a new backing range available for future encoding";
`clear` "resets the recording cursor to the start of attached capacity" and keeps the
attached memory; a recording call of `cost c` bytes consumes them from an attached range,
or fails and leaves the buffer in the "needs more memory" condition, consuming nothing
(memory the growth callback attaches arrives through `dkCmdBufAddMemory`);
`finishList` and all other calls leave the command memory alone. -/
def CmdMem.exec (cost : DriverCall → Nat) (m : CmdMem) (c : DriverCall) : CmdMem :=
  match c with
  | .dkCmdBufAddMemory _ mem offset size =>
    { m with ranges := m.ranges ++ [⟨mem, offset, size, 0⟩], needsMemory := false }
  | .dkCmdBufClear _ =>
    { ranges := m.ranges.map (fun r => { r with used := 0 }), consumed := 0,
      needsMemory := false }
  | c =>
    if isRecording c then
      match place (cost c) m.ranges with
      | some rs => { m with ranges := rs, consumed := m.consumed + cost c }
      | none => { m with needsMemory := true }
    else m

/-- Modelled from the spec: the command memory after the driver calls of a trace, from a
fresh command buffer. -/
def CmdMem.run (cost : DriverCall → Nat) (calls : List DriverCall) : CmdMem :=
  calls.foldl (CmdMem.exec cost) CmdMem.fresh

/-- Modelled from the spec: the "sum of attached range sizes", over the
`dkCmdBufAddMemory` calls of a trace. -/
def attachedBytes : List DriverCall → Nat
  | [] => 0
  | .dkCmdBufAddMemory _ _ _ size :: cs => size + attachedBytes cs
  | _ :: cs => attachedBytes cs

/-- Modelled from the spec: the accounting invariant of the command memory: no range has
more bytes used than it has, the bytes used add up to the bytes consumed, and the
attached sizes add up to `total`. -/
def CmdMem.Inv (m : CmdMem) (total : Nat) : Prop :=
  (∀ r ∈ m.ranges, r.used ≤ r.size) ∧
  (m.ranges.map CmdRange.used).sum = m.consumed ∧
  (m.ranges.map CmdRange.size).sum = total

/-- Modelled from the spec: the buffer copy instruction moves `size` bytes of GPU-visible
memory from `srcAddr` to `dstAddr`; the source is read as it was before the copy. -/
def copyBytes (mem : Nat → Nat) (srcAddr dstAddr size : Nat) : Nat → Nat :=
  fun a => if dstAddr ≤ a ∧ a < dstAddr + size then mem (srcAddr + (a - dstAddr)) else mem a

/-- Modelled from the spec: the effect on GPU-visible memory of one recorded instruction;
of the calls embedded here only the buffer copy writes memory. -/
def gpuExec (mem : Nat → Nat) : DriverCall → Nat → Nat
  | .dkCmdBufCopyBuffer _ srcAddr dstAddr size => copyBytes mem srcAddr dstAddr size
  | _ => mem

/-- Modelled from the spec: "instructions within one Command List execute in encoded
order". -/
def gpuExecList (mem : Nat → Nat) (instrs : List DriverCall) : Nat → Nat :=
  instrs.foldl gpuExec mem

/-- Modelled from the spec: memory after the command lists `ls` have executed one after
the other; `lists` gives the instructions recorded in each command list. -/
def execAll (lists : Nat → List DriverCall) (ls : List Nat) (mem : Nat → Nat) : Nat → Nat :=
  ls.foldl (fun m l => gpuExecList m (lists l)) mem

/-- Modelled from the spec: a queue (`dkQueue*` is driver code, not part of the sources),
an "ordered submission channel": the command lists submitted and not yet executed,
oldest first, the command lists executed, in the order of execution, and GPU-visible
memory. -/
structure QueueState where
  pending : List Nat
  executed : List Nat
  mem : Nat → Nat

/-- Modelled from the spec: an idle queue over the memory `mem`. -/
def QueueState.init (mem : Nat → Nat) : QueueState := ⟨[], [], mem⟩

/-- Modelled from the spec: what happens to a queue: the CPU makes a driver call, or the
GPU, whose execution "is asynchronous relative to the CPU", makes progress. -/
inductive QueueEvent where
  | call (c : DriverCall)
  | gpuProgress

/-- Modelled from the spec: the GPU executes the oldest pending command list ("execution
order across a single Queue is FIFO relative to submission order"). -/
def QueueState.retire (lists : Nat → List DriverCall) (s : QueueState) : QueueState :=
  match s.pending with
  | [] => s
  | l :: rest =>
    { pending := rest, executed := s.executed ++ [l], mem := gpuExecList s.mem (lists l) }

/-- Modelled from the spec: one `retire` for each element of the first argument. -/
def QueueState.retireAll (lists : Nat → List DriverCall) : List Nat → QueueState → QueueState
  | [], s => s
  | _ :: rest, s => QueueState.retireAll lists rest (s.retire lists)

/-- Modelled from the spec: `waitIdle` "blocks the calling thread until the Queue has
executed everything submitted so far". -/
def QueueState.drain (lists : Nat → List DriverCall) (s : QueueState) : QueueState :=
  QueueState.retireAll lists s.pending s

/-- Modelled from the spec: one event on the queue with handle `q`. `submitCommands`
"enqueues a Command List for execution; returns immediately"; `waitIdle` drains the
queue; `flush` makes buffered submissions begin executing, which changes neither what is
pending nor its order; calls on other objects do not touch the queue. -/
def QueueState.exec (q : Nat) (lists : Nat → List DriverCall) (s : QueueState) :
    QueueEvent → QueueState
  | .call (.dkQueueSubmitCommands obj cmds) =>
    if obj = q then { s with pending := s.pending ++ [cmds] } else s
  | .call (.dkQueueWaitIdle obj) => if obj = q then s.drain lists else s
  | .call _ => s
  | .gpuProgress => s.retire lists

/-- Modelled from the spec: the queue after the events `evs`, in order. -/
def QueueState.run (q : Nat) (lists : Nat → List DriverCall) (s : QueueState)
    (evs : List QueueEvent) : QueueState :=
  evs.foldl (QueueState.exec q lists) s

/-- Modelled from the spec: the command lists submitted to the queue `q` by the events
`evs`, in submission order. -/
def submitted (q : Nat) : List QueueEvent → List Nat
  | [] => []
  | .call (.dkQueueSubmitCommands obj cmds) :: evs =>
    if obj = q then cmds :: submitted q evs else submitted q evs
  | _ :: evs => submitted q evs

/-- Modelled from the spec: the state of a fence as the driver sees it (`dkFenceWait` and
the signal sources are driver code, not part of the sources): "signaled-or-not". -/
structure FenceState where
  signaled : Bool
deriving DecidableEq, Repr

/-- Modelled from the spec: a fence as default construction leaves it. The wrapper
zero-initialises the opaque driver state; no signal source has been given the fence, so
it is not signaled. -/
def FenceState.fresh : FenceState := ⟨false⟩

/-- Modelled from the spec: what happens to a fence: its signal source marks it signaled,
or the CPU waits on it with a timeout. -/
inductive FenceEvent where
  | signal
  | wait (timeout_ns : Int)
deriving DecidableEq, Repr

/-- Modelled from the spec: the state of a fence after an event; waiting does not change
it. -/
def FenceState.exec (s : FenceState) : FenceEvent → FenceState
  | .signal => { s with signaled := true }
  | .wait _ => s

/-- Modelled from the spec: the state of a fence after the events `evs`, in order. -/
def FenceState.run (s : FenceState) (evs : List FenceEvent) : FenceState :=
  evs.foldl FenceState.exec s

/-- Modelled from the spec: the answer of `dkFenceWait` on a fence in the state it has
when the wait ends. "Waiting on an already-signaled fence returns immediately" with
"signaled"; "waiting on an unsignaled fence blocks or times out": a wait with a timeout
(zero included) times out, a wait without one (a negative timeout, the default `-1`)
never returns, which is `none`. -/
def fenceWait (s : FenceState) (timeout_ns : Int) : Option DkResult :=
  if s.signaled then some .Success
  else if timeout_ns < 0 then none
  else some .Timeout

/-- Modelled from the spec: the state the driver finds in the storage of a fence nothing
has happened to yet. Storage that is all zero, as the default constructor leaves it, is
that of a fence never given to a signal source: `fresh`. What any other contents mean is
up to the driver, which is `none`. -/
def FenceState.ofStorage (storage : detail.Opaque) : Option FenceState :=
  if storage.words.all (fun w => w == 0) then some FenceState.fresh else none

/-- Modelled from the spec: the state of the fence stored at each address, `storage`
being the fence objects as they were constructed and `history` the events that happened
to each of them since. -/
def fencesAfter (storage : Int → detail.Opaque) (history : Int → List FenceEvent) :
    Int → Option FenceState :=
  fun obj => (FenceState.ofStorage (storage obj)).map (fun s => s.run (history obj))

/-- Modelled from the spec: a driver whose `dkFenceWait` answers as `fenceWait` on the
fence stored at the address it is given, `fences` giving the state of each fence; where
the state is not modelled or the modelled wait never returns, and for every other entry
point, the answer is that of `drv`. -/
def fenceDriver (fences : Int → Option FenceState) (drv : Driver) : Driver :=
  { drv with
    dkFenceWait := fun obj timeout_ns =>
      ((fences obj).bind (fun s => fenceWait s timeout_ns)).getD
        (drv.dkFenceWait obj timeout_ns) }

end Spec

/-! ## Handles and unique handles -/

/-- C1 (evaluation of the code at the failing input): in the block
`UniqueDevice a{Device{1}}; UniqueDevice b{Device{2}}; a = std::move(b);`
followed by the end of both scopes, `a` owns handle 1 before the assignment, the only
driver call of the whole block is the destruction of handle 2, and handle 1 is never
passed to `dkDeviceDestroy`. -/
theorem C1_move_assign_leaks_owned_handle :
    (detail.runUnique .Device (detail.overwriteOwner.take 2)).objs 0 =
      some ⟨detail.Handle.ofRaw 1⟩ ∧
    (detail.runUnique .Device detail.overwriteOwner).trace = [.dkDeviceDestroy 2] ∧
    (detail.runUnique .Device detail.overwriteOwner).trace.count (.dkDeviceDestroy 1) = 0 := by
  refine ⟨?_, ?_, ?_⟩ <;> rfl

/-- C2: for every raw value `v`, the handle wrapping `v` converts to `true` exactly
when `v` is not null, `operator!` gives `true` exactly when `v` is null and is the
negation of the bool conversion, the conversion back to the raw type gives `v`,
and the default-constructed and the nullptr-constructed handle are invalid. -/
theorem C2_handle_validity (K : HandleKind) (v : Nat) :
    ((detail.Handle.ofRaw v : detail.Handle K).toBool = true ↔ v ≠ nullptr) ∧
    ((detail.Handle.ofRaw v : detail.Handle K).not = true ↔ v = nullptr) ∧
    (detail.Handle.ofRaw v : detail.Handle K).not =
      !(detail.Handle.ofRaw v : detail.Handle K).toBool ∧
    (detail.Handle.ofRaw v : detail.Handle K).toRaw = v ∧
    (detail.Handle.default : detail.Handle K).toBool = false ∧
    (detail.Handle.default : detail.Handle K).not = true ∧
    (detail.Handle.ofNullptr : detail.Handle K).toBool = false ∧
    (detail.Handle.ofNullptr : detail.Handle K).not = true := by
  simp [detail.Handle.ofRaw, detail.Handle.toBool, detail.Handle.not, detail.Handle.toRaw,
    detail.Handle.default, detail.Handle.ofNullptr, nullptr, bne]

/-! ## Plural bind calls -/

/-- A run of slots bound one after the other: inside the run a slot holds the element
of its position, outside the run the table is as before. -/
theorem Spec.bindSlots_apply {α : Type} (elems : List α) (tbl : Nat → Option α)
    (firstId slot : Nat) :
    Spec.bindSlots tbl firstId elems slot =
      if firstId ≤ slot ∧ slot < firstId + elems.length then elems[slot - firstId]?
      else tbl slot := by
  induction elems generalizing tbl firstId with
  | nil =>
    have h : ¬ (firstId ≤ slot ∧ slot < firstId + 0) := by omega
    simp only [Spec.bindSlots, List.length_nil, h, if_false]
  | cons x xs ih =>
    rw [Spec.bindSlots, ih, List.length_cons]
    by_cases h1 : firstId + 1 ≤ slot
    · have h2 : firstId ≤ slot := by omega
      have h3 : slot - firstId = (slot - (firstId + 1)) + 1 := by omega
      by_cases h4 : slot < firstId + 1 + xs.length
      · have h5 : slot < firstId + (xs.length + 1) := by omega
        simp only [h1, h2, h4, h5, and_self, if_true]
        rw [h3, List.getElem?_cons_succ]
      · have h5 : ¬ slot < firstId + (xs.length + 1) := by omega
        have h6 : slot ≠ firstId := by omega
        simp only [h4, h5, and_false, if_false, Spec.bindSlot, h6]
    · have h3 : ¬ (firstId + 1 ≤ slot ∧ slot < firstId + 1 + xs.length) := by omega
      simp only [h3, if_false, Spec.bindSlot]
      by_cases h2 : slot = firstId
      · subst h2
        simp
      · have h4 : ¬ (firstId ≤ slot ∧ slot < firstId + (xs.length + 1)) := by omega
        simp only [h2, h4, if_false]

/-- The list an `ArrayProxy` designates has `size()` elements, the `i`-th of which is
the element stored at `data() + i`. -/
theorem detail.ArrayProxy.toList_spec {T : Type} (mem : Int → T) (p : detail.ArrayProxy T) :
    (p.toList mem).length = p.size ∧
      ∀ i, i < p.size → (p.toList mem)[i]? = some (mem (p.data + i)) := by
  refine ⟨by simp [detail.ArrayProxy.toList, detail.readArray], ?_⟩
  intro i hi
  simp [detail.ArrayProxy.toList, detail.readArray, List.getElem?_map, List.getElem?_range hi]

/-- C3: for every stage, every `firstId` and every `ArrayProxy` argument (designating the
list of its `size()` elements in client memory), each plural bind operation makes one
driver call that carries the stage, `firstId`, `data()` and `size()` unchanged, and the
run of slots modelled from the spec then holds exactly that list: slot `firstId + i`
holds the `i`-th element for every `i` below `size()`, in order, and every other slot
and stage is as before. The list has exactly `size()` elements. -/
theorem C3_plural_binds_bind_consecutive_slots (mem : ClientMem) (b : Spec.Bindings)
    (this : CmdBuf) (stage firstId : Nat) (buffers : detail.ArrayProxy DkBufExtents)
    (handles : detail.ArrayProxy DkResHandle) (viewports : detail.ArrayProxy DkViewport)
    (scissors : detail.ArrayProxy DkScissor) :
    (CmdBuf.bindUniformBuffers this stage firstId buffers =
        [.dkCmdBufBindUniformBuffers this.toRaw stage firstId buffers.data buffers.size] ∧
      StageRunBound b.uniformBuffers
        (Spec.Bindings.run mem b (CmdBuf.bindUniformBuffers this stage firstId buffers)).uniformBuffers
        stage firstId (buffers.toList mem.bufExtents)) ∧
    (CmdBuf.bindStorageBuffers this stage firstId buffers =
        [.dkCmdBufBindStorageBuffers this.toRaw stage firstId buffers.data buffers.size] ∧
      StageRunBound b.storageBuffers
        (Spec.Bindings.run mem b (CmdBuf.bindStorageBuffers this stage firstId buffers)).storageBuffers
        stage firstId (buffers.toList mem.bufExtents)) ∧
    (CmdBuf.bindTextures this stage firstId handles =
        [.dkCmdBufBindTextures this.toRaw stage firstId handles.data handles.size] ∧
      StageRunBound b.textures
        (Spec.Bindings.run mem b (CmdBuf.bindTextures this stage firstId handles)).textures
        stage firstId (handles.toList mem.resHandles)) ∧
    (CmdBuf.bindImages this stage firstId handles =
        [.dkCmdBufBindImages this.toRaw stage firstId handles.data handles.size] ∧
      StageRunBound b.images
        (Spec.Bindings.run mem b (CmdBuf.bindImages this stage firstId handles)).images
        stage firstId (handles.toList mem.resHandles)) ∧
    (CmdBuf.bindVtxBuffers this firstId buffers =
        [.dkCmdBufBindVtxBuffers this.toRaw firstId buffers.data buffers.size] ∧
      RunBound b.vtxBuffers
        (Spec.Bindings.run mem b (CmdBuf.bindVtxBuffers this firstId buffers)).vtxBuffers
        firstId (buffers.toList mem.bufExtents)) ∧
    (CmdBuf.setViewports this firstId viewports =
        [.dkCmdBufSetViewports this.toRaw firstId viewports.data viewports.size] ∧
      RunBound b.viewports
        (Spec.Bindings.run mem b (CmdBuf.setViewports this firstId viewports)).viewports
        firstId (viewports.toList mem.viewports)) ∧
    (CmdBuf.setScissors this firstId scissors =
        [.dkCmdBufSetScissors this.toRaw firstId scissors.data scissors.size] ∧
      RunBound b.scissors
        (Spec.Bindings.run mem b (CmdBuf.setScissors this firstId scissors)).scissors
        firstId (scissors.toList mem.scissors)) ∧
    (buffers.toList mem.bufExtents).length = buffers.size ∧
    (handles.toList mem.resHandles).length = handles.size ∧
    (viewports.toList mem.viewports).length = viewports.size ∧
    (scissors.toList mem.scissors).length = scissors.size := by
  have staged : ∀ {α : Type} (tbls : Nat → Nat → Option α) (elems : List α),
      StageRunBound tbls
        (Spec.setStage tbls stage (Spec.bindSlots (tbls stage) firstId elems))
        stage firstId elems := by
    intro α tbls elems
    refine ⟨fun slot => ?_, fun st hst => ?_⟩
    · simp [Spec.setStage, Spec.bindSlots_apply]
    · simp [Spec.setStage, hst]
  have flat : ∀ {α : Type} (tbl : Nat → Option α) (elems : List α),
      RunBound tbl (Spec.bindSlots tbl firstId elems) firstId elems :=
    fun tbl elems slot => Spec.bindSlots_apply elems tbl firstId slot
  refine ⟨⟨rfl, staged _ _⟩, ⟨rfl, staged _ _⟩, ⟨rfl, staged _ _⟩, ⟨rfl, staged _ _⟩,
    ⟨rfl, flat _ _⟩, ⟨rfl, flat _ _⟩, ⟨rfl, flat _ _⟩,
    (detail.ArrayProxy.toList_spec _ _).1, (detail.ArrayProxy.toList_spec _ _).1,
    (detail.ArrayProxy.toList_spec _ _).1, (detail.ArrayProxy.toList_spec _ _).1⟩

/-! ## ArrayProxy -/

/-- C4: an `ArrayProxy` is the (count, pointer) pair it was constructed from: from
`(count, ptr)` it has `size() = count` and `data() = ptr`; from one element it has
`size() = 1` and `data()` is the address of the element; from a `std::array` of `N`
elements it has `size() = N` and `data()` is the address of the first element; from
`nullptr` it has `size() = 0` and a null `data()`; and for every `ArrayProxy`, `empty()`
holds exactly when `size() = 0`, and `end() = begin() + size()`. -/
theorem C4_array_proxy_is_count_pointer_pair {T : Type} (count N : Nat) (ptr elem first : Int)
    (p : detail.ArrayProxy T) :
    ((detail.ArrayProxy.ofCountPtr count ptr : detail.ArrayProxy T).size = count ∧
      (detail.ArrayProxy.ofCountPtr count ptr : detail.ArrayProxy T).data = ptr) ∧
    ((detail.ArrayProxy.ofRef elem : detail.ArrayProxy T).size = 1 ∧
      (detail.ArrayProxy.ofRef elem : detail.ArrayProxy T).data = elem) ∧
    ((detail.ArrayProxy.ofStdArray N first : detail.ArrayProxy T).size = N ∧
      (detail.ArrayProxy.ofStdArray N first : detail.ArrayProxy T).data = first) ∧
    ((detail.ArrayProxy.ofNullptr : detail.ArrayProxy T).size = 0 ∧
      (detail.ArrayProxy.ofNullptr : detail.ArrayProxy T).data = 0) ∧
    (p.empty = true ↔ p.size = 0) ∧
    p.end_ = p.begin + p.size := by
  simp [detail.ArrayProxy.ofCountPtr, detail.ArrayProxy.ofRef, detail.ArrayProxy.ofStdArray,
    detail.ArrayProxy.ofNullptr, detail.ArrayProxy.size, detail.ArrayProxy.data,
    detail.ArrayProxy.empty, detail.ArrayProxy.end_, detail.ArrayProxy.begin]

/-! ## Makers and state builders -/

/-- The setter laws of `DeviceMaker`. -/
theorem DeviceMaker_setterLaws : SetterLaws DeviceMaker.setters DeviceMaker.others := by
  refine ⟨?_, ?_, ?_⟩
  · simp only [DeviceMaker.setters, DeviceMaker.others, List.forall_mem_cons, List.mem_nil_iff,
      false_imp_iff, implies_true, and_true]
    split_ands <;> first | exact fun _ _ => rfl | exact fun _ _ _ => rfl
  · simp only [DeviceMaker.setters, List.pairwise_cons, List.mem_cons, List.mem_nil_iff, or_false,
      forall_eq_or_imp, forall_eq, false_imp_iff, implies_true, and_true, List.Pairwise.nil]
    split_ands <;> first | exact fun _ _ => rfl | exact fun _ _ _ => rfl
  · intro r r0 hs ho
    cases r
    cases r0
    simp only [DeviceMaker.setters, DeviceMaker.others, List.forall_mem_cons, List.mem_nil_iff,
      false_imp_iff, implies_true, and_true] at hs ho
    simp only [DeviceMaker.mk.injEq]
    tauto

/-- The setter laws of `MemBlockMaker`. -/
theorem MemBlockMaker_setterLaws : SetterLaws MemBlockMaker.setters MemBlockMaker.others := by
  refine ⟨?_, ?_, ?_⟩
  · simp only [MemBlockMaker.setters, MemBlockMaker.others, List.forall_mem_cons, List.mem_nil_iff,
      false_imp_iff, implies_true, and_true]
    split_ands <;> first | exact fun _ _ => rfl | exact fun _ _ _ => rfl
  · simp only [MemBlockMaker.setters, List.pairwise_cons, List.mem_cons, List.mem_nil_iff, or_false,
      forall_eq_or_imp, forall_eq, false_imp_iff, implies_true, and_true, List.Pairwise.nil]
    split_ands <;> first | exact fun _ _ => rfl | exact fun _ _ _ => rfl
  · intro r r0 hs ho
    cases r
    cases r0
    simp only [MemBlockMaker.setters, MemBlockMaker.others, List.forall_mem_cons, List.mem_nil_iff,
      false_imp_iff, implies_true, and_true] at hs ho
    simp only [MemBlockMaker.mk.injEq]
    tauto

/-- The setter laws of `CmdBufMaker`. -/
theorem CmdBufMaker_setterLaws : SetterLaws CmdBufMaker.setters CmdBufMaker.others := by
  refine ⟨?_, ?_, ?_⟩
  · simp only [CmdBufMaker.setters, CmdBufMaker.others, List.forall_mem_cons, List.mem_nil_iff,
      false_imp_iff, implies_true, and_true]
    split_ands <;> first | exact fun _ _ => rfl | exact fun _ _ _ => rfl
  · simp only [CmdBufMaker.setters, List.pairwise_cons, List.mem_cons, List.mem_nil_iff, or_false,
      forall_eq_or_imp, forall_eq, false_imp_iff, implies_true, and_true, List.Pairwise.nil]
    split_ands <;> first | exact fun _ _ => rfl | exact fun _ _ _ => rfl
  · intro r r0 hs ho
    cases r
    cases r0
    simp only [CmdBufMaker.setters, CmdBufMaker.others, List.forall_mem_cons, List.mem_nil_iff,
      false_imp_iff, implies_true, and_true] at hs ho
    simp only [CmdBufMaker.mk.injEq]
    tauto

/-- The setter laws of `QueueMaker`. -/
theorem QueueMaker_setterLaws : SetterLaws QueueMaker.setters QueueMaker.others := by
  refine ⟨?_, ?_, ?_⟩
  · simp only [QueueMaker.setters, QueueMaker.others, List.forall_mem_cons, List.mem_nil_iff,
      false_imp_iff, implies_true, and_true]
    split_ands <;> first | exact fun _ _ => rfl | exact fun _ _ _ => rfl
  · simp only [QueueMaker.setters, List.pairwise_cons, List.mem_cons, List.mem_nil_iff, or_false,
      forall_eq_or_imp, forall_eq, false_imp_iff, implies_true, and_true, List.Pairwise.nil]
    split_ands <;> first | exact fun _ _ => rfl | exact fun _ _ _ => rfl
  · intro r r0 hs ho
    cases r
    cases r0
    simp only [QueueMaker.setters, QueueMaker.others, List.forall_mem_cons, List.mem_nil_iff,
      false_imp_iff, implies_true, and_true] at hs ho
    simp only [QueueMaker.mk.injEq]
    tauto

/-- The setter laws of `ShaderMaker`. -/
theorem ShaderMaker_setterLaws : SetterLaws ShaderMaker.setters ShaderMaker.others := by
  refine ⟨?_, ?_, ?_⟩
  · simp only [ShaderMaker.setters, ShaderMaker.others, List.forall_mem_cons, List.mem_nil_iff,
      false_imp_iff, implies_true, and_true]
    split_ands <;> first | exact fun _ _ => rfl | exact fun _ _ _ => rfl
  · simp only [ShaderMaker.setters, List.pairwise_cons, List.mem_cons, List.mem_nil_iff, or_false,
      forall_eq_or_imp, forall_eq, false_imp_iff, implies_true, and_true, List.Pairwise.nil]
    split_ands <;> first | exact fun _ _ => rfl | exact fun _ _ _ => rfl
  · intro r r0 hs ho
    cases r
    cases r0
    simp only [ShaderMaker.setters, ShaderMaker.others, List.forall_mem_cons, List.mem_nil_iff,
      false_imp_iff, implies_true, and_true] at hs ho
    simp only [ShaderMaker.mk.injEq]
    tauto

/-- The setter laws of `ImageLayoutMaker`. -/
theorem ImageLayoutMaker_setterLaws : SetterLaws ImageLayoutMaker.setters ImageLayoutMaker.others := by
  refine ⟨?_, ?_, ?_⟩
  · simp only [ImageLayoutMaker.setters, ImageLayoutMaker.others, List.forall_mem_cons, List.mem_nil_iff,
      false_imp_iff, implies_true, and_true]
    split_ands <;> first | exact fun _ _ => rfl | exact fun _ _ _ => rfl
  · simp only [ImageLayoutMaker.setters, List.pairwise_cons, List.mem_cons, List.mem_nil_iff, or_false,
      forall_eq_or_imp, forall_eq, false_imp_iff, implies_true, and_true, List.Pairwise.nil]
    split_ands <;> first | exact fun _ _ => rfl | exact fun _ _ _ => rfl
  · intro r r0 hs ho
    cases r
    cases r0
    simp only [ImageLayoutMaker.setters, ImageLayoutMaker.others, List.forall_mem_cons, List.mem_nil_iff,
      false_imp_iff, implies_true, and_true] at hs ho
    simp only [ImageLayoutMaker.mk.injEq]
    tauto

/-- The setter laws of `RasterizerState`. -/
theorem RasterizerState_setterLaws : SetterLaws RasterizerState.setters RasterizerState.others := by
  refine ⟨?_, ?_, ?_⟩
  · simp only [RasterizerState.setters, RasterizerState.others, List.forall_mem_cons, List.mem_nil_iff,
      false_imp_iff, implies_true, and_true]
    split_ands <;> first | exact fun _ _ => rfl | exact fun _ _ _ => rfl
  · simp only [RasterizerState.setters, List.pairwise_cons, List.mem_cons, List.mem_nil_iff, or_false,
      forall_eq_or_imp, forall_eq, false_imp_iff, implies_true, and_true, List.Pairwise.nil]
    split_ands <;> first | exact fun _ _ => rfl | exact fun _ _ _ => rfl
  · intro r r0 hs ho
    cases r
    cases r0
    simp only [RasterizerState.setters, RasterizerState.others, List.forall_mem_cons, List.mem_nil_iff,
      false_imp_iff, implies_true, and_true] at hs ho
    simp only [RasterizerState.mk.injEq]
    tauto

/-- The setter laws of `DepthStencilState`. -/
theorem DepthStencilState_setterLaws : SetterLaws DepthStencilState.setters DepthStencilState.others := by
  refine ⟨?_, ?_, ?_⟩
  · simp only [DepthStencilState.setters, DepthStencilState.others, List.forall_mem_cons, List.mem_nil_iff,
      false_imp_iff, implies_true, and_true]
    split_ands <;> first | exact fun _ _ => rfl | exact fun _ _ _ => rfl
  · simp only [DepthStencilState.setters, List.pairwise_cons, List.mem_cons, List.mem_nil_iff, or_false,
      forall_eq_or_imp, forall_eq, false_imp_iff, implies_true, and_true, List.Pairwise.nil]
    split_ands <;> first | exact fun _ _ => rfl | exact fun _ _ _ => rfl
  · intro r r0 hs ho
    cases r
    cases r0
    simp only [DepthStencilState.setters, DepthStencilState.others, List.forall_mem_cons, List.mem_nil_iff,
      false_imp_iff, implies_true, and_true] at hs ho
    simp only [DepthStencilState.mk.injEq]
    tauto

/-- C5: for each of `DeviceMaker`, `MemBlockMaker`, `CmdBufMaker`, `QueueMaker`,
`ShaderMaker`, `ImageLayoutMaker`, `RasterizerState` and `DepthStencilState`, every
single-field setter stores its argument in the field it names, leaves every other field
of the record unchanged and returns the record so changed; setters of different fields
commute; two calls of one setter leave the last value. -/
theorem C5_single_field_setters :
    SetterLaws DeviceMaker.setters DeviceMaker.others ∧
    SetterLaws MemBlockMaker.setters MemBlockMaker.others ∧
    SetterLaws CmdBufMaker.setters CmdBufMaker.others ∧
    SetterLaws QueueMaker.setters QueueMaker.others ∧
    SetterLaws ShaderMaker.setters ShaderMaker.others ∧
    SetterLaws ImageLayoutMaker.setters ImageLayoutMaker.others ∧
    SetterLaws RasterizerState.setters RasterizerState.others ∧
    SetterLaws DepthStencilState.setters DepthStencilState.others :=
  ⟨DeviceMaker_setterLaws, MemBlockMaker_setterLaws, CmdBufMaker_setterLaws,
    QueueMaker_setterLaws, ShaderMaker_setterLaws, ImageLayoutMaker_setterLaws,
    RasterizerState_setterLaws, DepthStencilState_setterLaws⟩

/-! ## Fences and compute dispatch -/

/-- C6: `Fence::wait` without an argument makes the one driver call
`dkFenceWait(this, -1)`, the infinite timeout; with a timeout it makes the one driver
call `dkFenceWait(this, timeout)` with the timeout unchanged; either way it returns the
status the driver answers to that call, whichever it is. -/
theorem C6_fence_wait_forwards (drv : Driver) (this timeout_ns : Int) :
    (Fence.wait drv this).2 = [.dkFenceWait this (-1)] ∧
    (Fence.wait drv this).1 = drv.dkFenceWait this (-1) ∧
    (Fence.wait drv this timeout_ns).2 = [.dkFenceWait this timeout_ns] ∧
    (Fence.wait drv this timeout_ns).1 = drv.dkFenceWait this timeout_ns ∧
    ∀ status : DkResult, drv.dkFenceWait this timeout_ns = status →
      (Fence.wait drv this timeout_ns).1 = status := by
  refine ⟨rfl, rfl, rfl, rfl, fun status h => ?_⟩
  rw [← h]
  rfl

/-- C7: for every triple of group counts below `2 ^ 32`, zeros included,
`dispatchCompute` records exactly one dispatch, which carries the three counts
unchanged and in the order X, Y, Z; every count it records lies in `[0, 2 ^ 32)`, so
none is negative. -/
theorem C7_dispatch_compute_counts (this : CmdBuf) (x y z : Nat)
    (hx : x < 2 ^ 32) (hy : y < 2 ^ 32) (hz : z < 2 ^ 32) :
    CmdBuf.dispatchCompute this x y z = [.dkCmdBufDispatchCompute this.toRaw x y z] ∧
    ∀ obj a b c, DriverCall.dkCmdBufDispatchCompute obj a b c ∈ CmdBuf.dispatchCompute this x y z →
      (a = x ∧ b = y ∧ c = z) ∧
      ((0 : Int) ≤ a ∧ (a : Int) < 2 ^ 32) ∧ ((0 : Int) ≤ b ∧ (b : Int) < 2 ^ 32) ∧
      ((0 : Int) ≤ c ∧ (c : Int) < 2 ^ 32) := by
  refine ⟨rfl, ?_⟩
  intro obj a b c hmem
  simp only [CmdBuf.dispatchCompute, List.mem_singleton, DriverCall.dkCmdBufDispatchCompute.injEq]
    at hmem
  obtain ⟨-, rfl, rfl, rfl⟩ := hmem
  refine ⟨⟨rfl, rfl, rfl⟩, ⟨?_, ?_⟩, ⟨?_, ?_⟩, ⟨?_, ?_⟩⟩ <;> first | positivity | exact_mod_cast hx | exact_mod_cast hy | exact_mod_cast hz

/-- C7 at the triple (0, 5, 2 ^ 32 - 1), which has a zero axis and the largest count. -/
theorem C7_dispatch_compute_counts_witness :
    CmdBuf.dispatchCompute (detail.Handle.ofRaw 7) 0 5 4294967295 =
      [.dkCmdBufDispatchCompute 7 0 5 4294967295] :=
  (C7_dispatch_compute_counts (detail.Handle.ofRaw 7) 0 5 4294967295
    (by decide) (by decide) (by decide)).1

/-! ## Memory blocks and command memory -/

/-- Placing an instruction keeps every range within its size, adds its bytes to the
bytes used and keeps the attached sizes. -/
theorem Spec.place_spec (n : Nat) (rs rs1 : List Spec.CmdRange)
    (hbound : ∀ r ∈ rs, r.used ≤ r.size) (h : Spec.place n rs = some rs1) :
    (∀ r ∈ rs1, r.used ≤ r.size) ∧
    (rs1.map Spec.CmdRange.used).sum = (rs.map Spec.CmdRange.used).sum + n ∧
    (rs1.map Spec.CmdRange.size).sum = (rs.map Spec.CmdRange.size).sum := by
  induction rs generalizing rs1 with
  | nil => simp [Spec.place] at h
  | cons r rs ih =>
    have hr : r.used ≤ r.size := hbound r (List.mem_cons_self _ _)
    have hrs : ∀ q ∈ rs, q.used ≤ q.size := fun q hq => hbound q (List.mem_cons_of_mem _ hq)
    rw [Spec.place] at h
    by_cases hfit : n ≤ r.remaining
    · simp only [hfit, if_true, Option.some.injEq] at h
      subst h
      have hfit1 : n ≤ r.size - r.used := hfit
      refine ⟨?_, ?_, ?_⟩
      · intro q hq
        rcases List.mem_cons.mp hq with rfl | hq
        · show r.used + n ≤ r.size
          omega
        · exact hrs q hq
      · simp only [List.map_cons, List.sum_cons]
        omega
      · simp only [List.map_cons, List.sum_cons]
    · simp only [hfit, if_false] at h
      cases h2 : Spec.place n rs with
      | none => simp [h2] at h
      | some rs2 =>
      simp only [h2, Option.map_some', Option.some.injEq] at h
      subst h
      obtain ⟨i1, i2, i3⟩ := ih rs2 hrs h2
      refine ⟨?_, ?_, ?_⟩
      · intro q hq
        rcases List.mem_cons.mp hq with rfl | hq
        · exact hr
        · exact i1 q hq
      · simp only [List.map_cons, List.sum_cons, i2]
        omega
      · simp only [List.map_cons, List.sum_cons, i3]

/-- One driver call keeps the accounting invariant; an `addMemory` call adds its size to
the attached total. -/
theorem Spec.CmdMem.exec_inv (cost : DriverCall → Nat) (m : Spec.CmdMem) (total : Nat)
    (c : DriverCall) (h : m.Inv total) :
    (Spec.CmdMem.exec cost m c).Inv (total + Spec.attachedBytes [c]) := by
  obtain ⟨h1, h2, h3⟩ := h
  have recording : ∀ c : DriverCall,
      (match Spec.place (cost c) m.ranges with
        | some rs => ({ m with ranges := rs, consumed := m.consumed + cost c } : Spec.CmdMem)
        | none => { m with needsMemory := true }).Inv total := by
    intro c
    cases hp : Spec.place (cost c) m.ranges with
    | none => exact ⟨h1, h2, h3⟩
    | some rs =>
      obtain ⟨i1, i2, i3⟩ := Spec.place_spec _ _ _ h1 hp
      exact ⟨i1, by simp only [i2, h2], by simp only [i3, h3]⟩
  cases c
  case dkCmdBufAddMemory obj mem offset size =>
    refine ⟨?_, ?_, ?_⟩
    · intro r hr
      simp only [Spec.CmdMem.exec, List.mem_append, List.mem_singleton] at hr
      rcases hr with hr | rfl
      · exact h1 r hr
      · exact Nat.zero_le _
    · simp [Spec.CmdMem.exec, Spec.CmdRange.used, h2]
    · simp [Spec.CmdMem.exec, Spec.attachedBytes, h3]
  case dkCmdBufClear obj =>
    refine ⟨?_, ?_, ?_⟩
    · intro r hr
      simp only [Spec.CmdMem.exec, List.mem_map] at hr
      obtain ⟨q, -, rfl⟩ := hr
      exact Nat.zero_le _
    · simp [Spec.CmdMem.exec, Function.comp_def]
    · simp [Spec.CmdMem.exec, Spec.attachedBytes, Function.comp_def, h3]
  all_goals
    first
    | exact ⟨h1, h2, h3⟩
    | exact recording _

/-- The attached bytes of a trace, one call at a time. -/
theorem Spec.attachedBytes_cons (c : DriverCall) (cs : List DriverCall) :
    Spec.attachedBytes (c :: cs) = Spec.attachedBytes [c] + Spec.attachedBytes cs := by
  cases c <;> simp [Spec.attachedBytes]

/-- A trace of driver calls keeps the accounting invariant and adds the attached bytes
of its `addMemory` calls to the total. -/
theorem Spec.CmdMem.foldl_inv (cost : DriverCall → Nat) (calls : List DriverCall)
    (m : Spec.CmdMem) (total : Nat) (h : m.Inv total) :
    (calls.foldl (Spec.CmdMem.exec cost) m).Inv (total + Spec.attachedBytes calls) := by
  induction calls generalizing m total with
  | nil => simpa [Spec.attachedBytes] using h
  | cons c cs ih =>
    rw [List.foldl_cons, Spec.attachedBytes_cons, ← Nat.add_assoc]
    exact ih _ _ (Spec.CmdMem.exec_inv cost m total c h)

/-- The free bytes of ranges that are used within their size are the sizes less the
bytes used. -/
theorem Spec.sum_remaining (rs : List Spec.CmdRange) (h : ∀ r ∈ rs, r.used ≤ r.size) :
    (rs.map Spec.CmdRange.remaining).sum + (rs.map Spec.CmdRange.used).sum =
      (rs.map Spec.CmdRange.size).sum := by
  induction rs with
  | nil => rfl
  | cons r rs ih =>
    have hr : r.used ≤ r.size := h r (List.mem_cons_self _ _)
    have ih1 := ih (fun q hq => h q (List.mem_cons_of_mem _ hq))
    simp only [List.map_cons, List.sum_cons, Spec.CmdRange.remaining] at ih1 ⊢
    omega

/-- C9 (against the command memory modelled from the spec): for every sequence of
`addMemory` calls interleaved with recording calls (and `clear`, `finishList`) on a fresh
command buffer, whatever number of bytes each recording call encodes, the available
recording capacity equals the sum of the attached range sizes minus the bytes consumed
by recording, and the bytes consumed never exceed the bytes attached. Each
`CmdBuf::addMemory(mem, offset, size)` is one `dkCmdBufAddMemory` call that attaches
`size` bytes. -/
theorem C9_capacity_is_attached_minus_consumed (cost : DriverCall → Nat)
    (calls : List DriverCall) (this : CmdBuf) (mem offset size : Nat) :
    (Spec.CmdMem.run cost calls).available =
      Spec.attachedBytes calls - (Spec.CmdMem.run cost calls).consumed ∧
    (Spec.CmdMem.run cost calls).consumed ≤ Spec.attachedBytes calls ∧
    CmdBuf.addMemory this mem offset size = [.dkCmdBufAddMemory this.toRaw mem offset size] ∧
    Spec.attachedBytes (calls ++ CmdBuf.addMemory this mem offset size) =
      Spec.attachedBytes calls + size ∧
    (Spec.CmdMem.run cost (calls ++ CmdBuf.addMemory this mem offset size)).available =
      (Spec.CmdMem.run cost calls).available + size := by
  have inv : ∀ cs : List DriverCall, (Spec.CmdMem.run cost cs).Inv (Spec.attachedBytes cs) := by
    intro cs
    have h := Spec.CmdMem.foldl_inv cost cs Spec.CmdMem.fresh 0 ⟨by simp [Spec.CmdMem.fresh], rfl, rfl⟩
    simpa [Spec.CmdMem.run] using h
  have avail : ∀ cs : List DriverCall, (Spec.CmdMem.run cost cs).available +
      (Spec.CmdMem.run cost cs).consumed = Spec.attachedBytes cs := by
    intro cs
    obtain ⟨h1, h2, h3⟩ := inv cs
    have h := Spec.sum_remaining _ h1
    rw [h2, h3] at h
    exact h
  have att : Spec.attachedBytes (calls ++ CmdBuf.addMemory this mem offset size) =
      Spec.attachedBytes calls + size := by
    induction calls with
    | nil => simp [CmdBuf.addMemory, Spec.attachedBytes]
    | cons c cs ih =>
      rw [List.cons_append, Spec.attachedBytes_cons, ih, Spec.attachedBytes_cons c cs]
      omega
  have cons : (Spec.CmdMem.run cost (calls ++ CmdBuf.addMemory this mem offset size)).consumed =
      (Spec.CmdMem.run cost calls).consumed := by
    simp [Spec.CmdMem.run, CmdBuf.addMemory, List.foldl_append, Spec.CmdMem.exec]
  have a1 := avail calls
  have a2 := avail (calls ++ CmdBuf.addMemory this mem offset size)
  rw [att, cons] at a2
  refine ⟨by omega, by omega, rfl, att, by omega⟩

/-- C9 on a trace: 64 bytes are attached, a dispatch of 24 bytes is recorded and 32 more
bytes are attached, which leaves 96 - 24 = 72 bytes of capacity. -/
theorem C9_capacity_is_attached_minus_consumed_witness :
    (Spec.CmdMem.run (fun _ => 24)
      (CmdBuf.addMemory (detail.Handle.ofRaw 1) 9 0 64 ++
        CmdBuf.dispatchCompute (detail.Handle.ofRaw 1) 1 1 1 ++
        CmdBuf.addMemory (detail.Handle.ofRaw 1) 9 64 32)).available = 72 := by
  rw [(C9_capacity_is_attached_minus_consumed (fun _ => 24)
      (CmdBuf.addMemory (detail.Handle.ofRaw 1) 9 0 64 ++
        CmdBuf.dispatchCompute (detail.Handle.ofRaw 1) 1 1 1 ++
        CmdBuf.addMemory (detail.Handle.ofRaw 1) 9 64 32) (detail.Handle.ofRaw 1) 0 0 0).1]
  decide

/-! ## Queues -/

/-- Executing command lists one after the other, split at any point. -/
theorem Spec.execAll_append (lists : Nat → List DriverCall) (ls ks : List Nat)
    (mem : Nat → Nat) :
    Spec.execAll lists (ls ++ ks) mem = Spec.execAll lists ks (Spec.execAll lists ls mem) := by
  simp [Spec.execAll, List.foldl_append]

/-- GPU progress moves the oldest pending list to the end of the executed lists and
keeps memory equal to the executed lists run in order. -/
theorem Spec.QueueState.retire_spec (lists : Nat → List DriverCall) (mem0 : Nat → Nat)
    (s : Spec.QueueState) (hmem : s.mem = Spec.execAll lists s.executed mem0) :
    (s.retire lists).executed ++ (s.retire lists).pending = s.executed ++ s.pending ∧
    (s.retire lists).pending = s.pending.tail ∧
    (s.retire lists).mem = Spec.execAll lists (s.retire lists).executed mem0 := by
  cases hp : s.pending with
  | nil => simp [Spec.QueueState.retire, hp, hmem]
  | cons l rest =>
    simp only [Spec.QueueState.retire, hp, List.append_assoc, List.singleton_append,
      List.tail_cons, true_and]
    rw [Spec.execAll_append, ← hmem]
    rfl

/-- Retiring once per pending list empties the queue in order. -/
theorem Spec.QueueState.retireAll_spec (lists : Nat → List DriverCall) (mem0 : Nat → Nat)
    (p : List Nat) (s : Spec.QueueState) (hp : s.pending = p)
    (hmem : s.mem = Spec.execAll lists s.executed mem0) :
    (Spec.QueueState.retireAll lists p s).pending = [] ∧
    (Spec.QueueState.retireAll lists p s).executed = s.executed ++ p ∧
    (Spec.QueueState.retireAll lists p s).mem =
      Spec.execAll lists (Spec.QueueState.retireAll lists p s).executed mem0 := by
  induction p generalizing s with
  | nil => simp [Spec.QueueState.retireAll, hp, hmem]
  | cons l rest ih =>
    obtain ⟨r1, r2, r3⟩ := Spec.QueueState.retire_spec lists mem0 s hmem
    have hp1 : (s.retire lists).pending = rest := by rw [r2, hp]; rfl
    obtain ⟨i1, i2, i3⟩ := ih (s.retire lists) hp1 r3
    rw [Spec.QueueState.retireAll]
    refine ⟨i1, ?_, i3⟩
    rw [i2]
    have h := r1
    rw [hp1, hp] at h
    have h2 : (s.retire lists).executed = s.executed ++ [l] := by
      simp [Spec.QueueState.retire, hp]
    rw [h2]
    simp

/-- Every event keeps the submission order: the executed lists followed by the pending
lists are the lists submitted so far, and memory is the executed lists run in order. -/
theorem Spec.QueueState.run_spec (q : Nat) (lists : Nat → List DriverCall) (mem0 : Nat → Nat)
    (evs : List Spec.QueueEvent) (s : Spec.QueueState)
    (hmem : s.mem = Spec.execAll lists s.executed mem0) :
    (Spec.QueueState.run q lists s evs).executed ++ (Spec.QueueState.run q lists s evs).pending =
      s.executed ++ s.pending ++ Spec.submitted q evs ∧
    (Spec.QueueState.run q lists s evs).mem =
      Spec.execAll lists (Spec.QueueState.run q lists s evs).executed mem0 := by
  induction evs generalizing s with
  | nil => simp [Spec.QueueState.run, Spec.submitted, hmem]
  | cons e es ih =>
    have step : (Spec.QueueState.exec q lists s e).executed ++
          (Spec.QueueState.exec q lists s e).pending ++ Spec.submitted q es =
          s.executed ++ s.pending ++ Spec.submitted q (e :: es) ∧
        (Spec.QueueState.exec q lists s e).mem =
          Spec.execAll lists (Spec.QueueState.exec q lists s e).executed mem0 := by
      cases e with
      | gpuProgress =>
        obtain ⟨r1, -, r3⟩ := Spec.QueueState.retire_spec lists mem0 s hmem
        exact ⟨by simp only [Spec.QueueState.exec, r1, Spec.submitted], r3⟩
      | call c =>
        cases c
        case dkQueueSubmitCommands obj cmds =>
          by_cases hq : obj = q
          · simp [Spec.QueueState.exec, Spec.submitted, hq, hmem]
          · simp [Spec.QueueState.exec, Spec.submitted, hq, hmem]
        case dkQueueWaitIdle obj =>
          by_cases hq : obj = q
          · obtain ⟨d1, d2, d3⟩ := Spec.QueueState.retireAll_spec lists mem0 s.pending s rfl hmem
            simp only [Spec.QueueState.exec, hq, if_true, Spec.QueueState.drain, Spec.submitted]
            exact ⟨by rw [d1, d2]; simp, d3⟩
          · simp [Spec.QueueState.exec, Spec.submitted, hq, hmem]
        all_goals exact ⟨rfl, hmem⟩
    obtain ⟨i1, i2⟩ := ih (Spec.QueueState.exec q lists s e) step.2
    exact ⟨by rw [Spec.QueueState.run, List.foldl_cons]; exact i1.trans step.1, i2⟩

/-- The submission order of two runs of events, one after the other. -/
theorem Spec.submitted_append (q : Nat) (evs es : List Spec.QueueEvent) :
    Spec.submitted q (evs ++ es) = Spec.submitted q evs ++ Spec.submitted q es := by
  induction evs with
  | nil => rfl
  | cons e evs ih =>
    cases e with
    | gpuProgress => simpa [Spec.submitted] using ih
    | call c =>
      cases c
      case dkQueueSubmitCommands obj cmds =>
        by_cases hq : obj = q <;> simp [Spec.submitted, hq, ih]
      all_goals simpa [Spec.submitted] using ih

/-- Copies onto one destination range leave every byte outside that range as it was. -/
theorem Spec.execAll_copies_outside (lists : Nat → List DriverCall) (dstAddr size : Nat)
    (ls : List Nat) (mem : Nat → Nat)
    (hcopy : ∀ l ∈ ls, ∃ (cb : CmdBuf) (src : Nat), lists l = CmdBuf.copyBuffer cb src dstAddr size)
    (a : Nat) (ha : ¬ (dstAddr ≤ a ∧ a < dstAddr + size)) :
    Spec.execAll lists ls mem a = mem a := by
  induction ls generalizing mem with
  | nil => rfl
  | cons l ls ih =>
    obtain ⟨cb, src, hl⟩ := hcopy l (List.mem_cons_self _ _)
    have h := ih (Spec.gpuExecList mem (lists l))
      (fun k hk => hcopy k (List.mem_cons_of_mem _ hk))
    rw [Spec.execAll, List.foldl_cons]
    rw [Spec.execAll] at h
    rw [h, hl]
    simp [CmdBuf.copyBuffer, Spec.gpuExecList, Spec.gpuExec, Spec.copyBytes, ha]

/-- C10 (against the queue modelled from the spec): for every sequence of events on one
queue, in which the command lists are submitted with `submitCommands` while the GPU makes
progress at any moments in between, followed by `waitIdle`: nothing is left pending, the
lists were executed in exactly the order of submission, and memory is the result of
running them in that order. Each `submitCommands` appends its list to the submission
order. When the lists are buffer copies of one size onto one destination, and the source
of the last one does not overlap the destination, the destination ends up holding the
data of the last-submitted source. -/
theorem C10_queue_executes_in_submission_order (q : Queue) (lists : Nat → List DriverCall)
    (mem0 : Nat → Nat) (evs : List Spec.QueueEvent) :
    (Spec.QueueState.run q.toRaw lists (Spec.QueueState.init mem0)
        (evs ++ (Queue.waitIdle q).map .call)).pending = [] ∧
    (Spec.QueueState.run q.toRaw lists (Spec.QueueState.init mem0)
        (evs ++ (Queue.waitIdle q).map .call)).executed = Spec.submitted q.toRaw evs ∧
    (Spec.QueueState.run q.toRaw lists (Spec.QueueState.init mem0)
        (evs ++ (Queue.waitIdle q).map .call)).mem =
      Spec.execAll lists (Spec.submitted q.toRaw evs) mem0 ∧
    (∀ cmds, Spec.submitted q.toRaw (evs ++ (Queue.submitCommands q cmds).map .call) =
      Spec.submitted q.toRaw evs ++ [cmds]) ∧
    ∀ (cb : CmdBuf) (earlier : List Nat) (lastList srcAddr dstAddr size : Nat),
      Spec.submitted q.toRaw evs = earlier ++ [lastList] →
      (∀ l ∈ earlier, ∃ (cb0 : CmdBuf) (src : Nat),
        lists l = CmdBuf.copyBuffer cb0 src dstAddr size) →
      lists lastList = CmdBuf.copyBuffer cb srcAddr dstAddr size →
      (srcAddr + size ≤ dstAddr ∨ dstAddr + size ≤ srcAddr) →
      ∀ i, i < size →
        (Spec.QueueState.run q.toRaw lists (Spec.QueueState.init mem0)
          (evs ++ (Queue.waitIdle q).map .call)).mem (dstAddr + i) = mem0 (srcAddr + i) := by
  have hrun := Spec.QueueState.run_spec q.toRaw lists mem0 evs (Spec.QueueState.init mem0) rfl
  have hsplit : Spec.QueueState.run q.toRaw lists (Spec.QueueState.init mem0)
      (evs ++ (Queue.waitIdle q).map .call) =
      (Spec.QueueState.run q.toRaw lists (Spec.QueueState.init mem0) evs).drain lists := by
    simp [Spec.QueueState.run, List.foldl_append, Queue.waitIdle, Spec.QueueState.exec]
  obtain ⟨d1, d2, d3⟩ := Spec.QueueState.retireAll_spec lists mem0 _
    (Spec.QueueState.run q.toRaw lists (Spec.QueueState.init mem0) evs) rfl hrun.2
  have hexec : (Spec.QueueState.run q.toRaw lists (Spec.QueueState.init mem0)
      (evs ++ (Queue.waitIdle q).map .call)).executed = Spec.submitted q.toRaw evs := by
    rw [hsplit, Spec.QueueState.drain, d2, hrun.1]
    simp [Spec.QueueState.init]
  have hmem : (Spec.QueueState.run q.toRaw lists (Spec.QueueState.init mem0)
      (evs ++ (Queue.waitIdle q).map .call)).mem =
      Spec.execAll lists (Spec.submitted q.toRaw evs) mem0 := by
    rw [← hexec, hsplit]
    exact d3
  refine ⟨by rw [hsplit]; exact d1, hexec, hmem, ?_, ?_⟩
  · intro cmds
    rw [Spec.submitted_append]
    simp [Queue.submitCommands, Spec.submitted]
  · intro cb earlier lastList srcAddr dstAddr size hsub hearlier hlast hdisj i hi
    rw [hmem, hsub, Spec.execAll_append]
    have hout : ∀ a, ¬ (dstAddr ≤ a ∧ a < dstAddr + size) →
        Spec.execAll lists earlier mem0 a = mem0 a :=
      fun a ha => Spec.execAll_copies_outside lists dstAddr size earlier mem0 hearlier a ha
    have hin : dstAddr ≤ dstAddr + i ∧ dstAddr + i < dstAddr + size := by omega
    have hsrc : ¬ (dstAddr ≤ srcAddr + i ∧ srcAddr + i < dstAddr + size) := by omega
    simp only [Spec.execAll, List.foldl_cons, List.foldl_nil, hlast, CmdBuf.copyBuffer,
      Spec.gpuExecList, Spec.gpuExec, Spec.copyBytes, hin, and_self, if_true,
      Nat.add_sub_cancel_left]
    exact hout _ hsrc

/-- C10 on two copies: list 10 copies 4 bytes from address 100 to address 200, list 11
copies 4 bytes from address 300 to address 200; they are submitted in this order, the GPU
making progress in between, and after `waitIdle` byte 2 of the destination holds byte 2
of the source submitted last. -/
theorem C10_queue_executes_in_submission_order_witness :
    (Spec.QueueState.run 5
      (fun l => if l = 10 then CmdBuf.copyBuffer (detail.Handle.ofRaw 1) 100 200 4
        else CmdBuf.copyBuffer (detail.Handle.ofRaw 1) 300 200 4)
      (Spec.QueueState.init (fun a => a))
      (((Queue.submitCommands (detail.Handle.ofRaw 5) 10).map Spec.QueueEvent.call ++ [Spec.QueueEvent.gpuProgress] ++
          (Queue.submitCommands (detail.Handle.ofRaw 5) 11).map Spec.QueueEvent.call) ++
        (Queue.waitIdle (detail.Handle.ofRaw 5)).map Spec.QueueEvent.call)).mem (200 + 2) = 300 + 2 :=
  (C10_queue_executes_in_submission_order (detail.Handle.ofRaw 5)
    (fun l => if l = 10 then CmdBuf.copyBuffer (detail.Handle.ofRaw 1) 100 200 4
      else CmdBuf.copyBuffer (detail.Handle.ofRaw 1) 300 200 4)
    (fun a => a)
    ((Queue.submitCommands (detail.Handle.ofRaw 5) 10).map Spec.QueueEvent.call ++ [Spec.QueueEvent.gpuProgress] ++
      (Queue.submitCommands (detail.Handle.ofRaw 5) 11).map Spec.QueueEvent.call)).2.2.2.2
    (detail.Handle.ofRaw 1) [10] 11 300 200 4 (by decide)
    (by
      intro l hl
      rw [List.mem_singleton] at hl
      subst hl
      exact ⟨detail.Handle.ofRaw 1, 100, rfl⟩)
    rfl (by decide) 2 (by decide)

/-! ## Fences that were never signaled -/

/-- A fence on which no signal event happened is not signaled. -/
theorem Spec.FenceState.run_not_signaled (evs : List Spec.FenceEvent) (s : Spec.FenceState)
    (hs : s.signaled = false) (hno : Spec.FenceEvent.signal ∉ evs) :
    (s.run evs).signaled = false := by
  induction evs generalizing s with
  | nil => exact hs
  | cons e es ih =>
    rw [Spec.FenceState.run, List.foldl_cons]
    cases e with
    | signal => exact absurd (List.mem_cons_self _ _) hno
    | wait t => exact ih s hs (fun h => hno (List.mem_cons_of_mem _ h))

/-- Storage of `size` zero words is that of a fresh fence. -/
theorem Spec.FenceState.ofStorage_default (size : Nat) :
    Spec.FenceState.ofStorage (Fence.default size) = some Spec.FenceState.fresh := by
  simp [Spec.FenceState.ofStorage, Fence.default, detail.Opaque.default]

/-- C11 (against the fence modelled from the spec): take the fence that the default
constructor of `Fence` leaves at the address `this`, whose storage is `size` words, all
zero, and let any events but a signal happen to it (waits with any timeouts): the fence
has never been signaled. Then `wait(0)` on this fence makes the one driver call
`dkFenceWait(this, 0)` and returns the timed-out status, not the signaled one. -/
theorem C11_unsignaled_fence_wait_zero_times_out (drv : Driver) (storage : Int → detail.Opaque)
    (history : Int → List Spec.FenceEvent) (this : Int) (size : Nat)
    (hctor : storage this = Fence.default size)
    (hno : Spec.FenceEvent.signal ∉ history this) :
    Fence.wait (Spec.fenceDriver (Spec.fencesAfter storage history) drv) this 0 =
      (.Timeout, [.dkFenceWait this 0]) ∧
    (Fence.wait (Spec.fenceDriver (Spec.fencesAfter storage history) drv) this 0).1 ≠ .Success ∧
    (storage this).words = List.replicate size 0 ∧
    Spec.fencesAfter storage history this = some (Spec.FenceState.fresh.run (history this)) ∧
    (Spec.FenceState.fresh.run (history this)).signaled = false := by
  have hs : (Spec.FenceState.fresh.run (history this)).signaled = false :=
    Spec.FenceState.run_not_signaled (history this) _ rfl hno
  have hst : Spec.fencesAfter storage history this =
      some (Spec.FenceState.fresh.run (history this)) := by
    simp [Spec.fencesAfter, hctor, Spec.FenceState.ofStorage_default]
  have hres : Fence.wait (Spec.fenceDriver (Spec.fencesAfter storage history) drv) this 0 =
      (.Timeout, [.dkFenceWait this 0]) := by
    simp [Fence.wait, Spec.fenceDriver, hst, Spec.fenceWait, hs]
  refine ⟨hres, ?_, ?_, hst, hs⟩
  · rw [hres]
    simp
  · rw [hctor]
    rfl

/-- C11 on a fence of 6 words default-constructed at address 64, waited on twice and
never signaled. -/
theorem C11_unsignaled_fence_wait_zero_times_out_witness :
    Fence.wait (Spec.fenceDriver
        (Spec.fencesAfter (fun _ => Fence.default 6)
          (fun _ => [Spec.FenceEvent.wait 5, Spec.FenceEvent.wait 0]))
        (Driver.always 0 .Success)) 64 0 =
      (.Timeout, [.dkFenceWait 64 0]) :=
  (C11_unsignaled_fence_wait_zero_times_out (Driver.always 0 .Success)
    (fun _ => Fence.default 6) (fun _ => [Spec.FenceEvent.wait 5, Spec.FenceEvent.wait 0])
    64 6 rfl (by decide)).1

/-! ## Ownership of handles -/

/-- C12: move-constructing a `UniqueHandle` from a plain handle `h` gives a unique handle
that holds the former value of `h` and leaves `h` null; and for two distinct live unique
handles `x` and `y`, after `x = std::move(y)` the object `x` holds exactly the handle `y`
held before and `y` is null, no other object changes and no driver call is made. -/
theorem C12_ownership_transfer (K : HandleKind) (h : detail.Handle K) (s : detail.UniqueState K)
    (x y : Nat) (a b : detail.UniqueHandle K) (hxy : x ≠ y)
    (ha : s.objs x = some a) (hb : s.objs y = some b) :
    ((detail.UniqueHandle.ofHandle h).1.toHandle.toRaw = h.toRaw ∧
      (detail.UniqueHandle.ofHandle h).2.toRaw = nullptr ∧
      (detail.UniqueHandle.ofHandle h).2.toBool = false) ∧
    ((detail.UniqueOp.step s (.moveAssign x y)).objs x =
        some ⟨detail.Handle.ofRaw b.toHandle.toRaw⟩ ∧
      (detail.UniqueOp.step s (.moveAssign x y)).objs y = some ⟨detail.Handle.ofNullptr⟩ ∧
      (∀ z, z ≠ x → z ≠ y → (detail.UniqueOp.step s (.moveAssign x y)).objs z = s.objs z) ∧
      (detail.UniqueOp.step s (.moveAssign x y)).trace = s.trace) := by
  refine ⟨⟨rfl, rfl, rfl⟩, ?_⟩
  have hyx : y ≠ x := fun e => hxy e.symm
  refine ⟨?_, ?_, ?_, ?_⟩
  · simp [detail.UniqueOp.step, ha, hb, detail.UniqueState.put, hyx, hxy, detail.Handle._set,
      detail.Handle._clear, detail.Handle.ofRaw, detail.Handle.toRaw]
  · simp [detail.UniqueOp.step, ha, hb, detail.UniqueState.put, hyx, detail.Handle._clear,
      detail.Handle.ofNullptr]
  · intro z hzx hzy
    simp [detail.UniqueOp.step, ha, hb, detail.UniqueState.put, hyx, hzx, hzy]
  · simp [detail.UniqueOp.step, ha, hb, detail.UniqueState.put, hyx]

/-- C12 on the block `UniqueDevice a{Device{1}}; UniqueDevice b{Device{2}}; a = std::move(b);`:
afterwards `a` holds handle 2. -/
theorem C12_ownership_transfer_witness :
    (detail.UniqueOp.step
      (detail.runUnique .Device [.constructFrom 0 1, .constructFrom 1 2])
      (.moveAssign 0 1)).objs 0 = some ⟨detail.Handle.ofRaw 2⟩ :=
  (C12_ownership_transfer .Device (detail.Handle.ofRaw 3)
    (detail.runUnique .Device [.constructFrom 0 1, .constructFrom 1 2]) 0 1
    ⟨detail.Handle.ofRaw 1⟩ ⟨detail.Handle.ofRaw 2⟩ (by decide) rfl rfl).2.1

/-! ## Destroying and clearing plain handles -/

/-- The destroy entry point of a handle kind tells its argument. -/
theorem HandleKind.dkDestroy_injective (K : HandleKind) (v w : Nat)
    (h : K.dkDestroy v = K.dkDestroy w) : v = w := by
  cases K <;> simpa [HandleKind.dkDestroy] using h

/-- C13 as stated fails for the null handle: a `Device` that holds `v = nullptr` passes
`v` to `dkDeviceDestroy` at the first `destroy()` and again at the second. -/
theorem C13_second_destroy_passes_null_again :
    (detail.Handle.ofRaw nullptr : Device).destroy.2 = [.dkDeviceDestroy nullptr] ∧
    DriverCall.dkDeviceDestroy nullptr ∈
      ((detail.Handle.ofRaw nullptr : Device).destroy.1).destroy.2 := by
  decide

/-- C13 (amended): for each handle kind and every value `v` the wrapper holds,
`destroy()` makes exactly one driver call, the destroy entry point of the kind with
argument `v`, and afterwards the wrapper holds null, converts to `false` and compares
equal to a default-constructed handle; a second `destroy()` makes one driver call with
argument null, so that for every non-null `v` it does not pass `v` to the driver
again. -/
theorem C13_destroy_once_then_null (K : HandleKind) (v : Nat) :
    (detail.Handle.ofRaw v : detail.Handle K).destroy.2 = [K.dkDestroy v] ∧
    (detail.Handle.ofRaw v : detail.Handle K).destroy.1.toRaw = nullptr ∧
    (detail.Handle.ofRaw v : detail.Handle K).destroy.1.toBool = false ∧
    detail.Handle.eq (detail.Handle.ofRaw v : detail.Handle K).destroy.1 detail.Handle.default
      = true ∧
    ((detail.Handle.ofRaw v : detail.Handle K).destroy.1).destroy.2 = [K.dkDestroy nullptr] ∧
    (v ≠ nullptr →
      K.dkDestroy v ∉ ((detail.Handle.ofRaw v : detail.Handle K).destroy.1).destroy.2) := by
  refine ⟨rfl, rfl, rfl, rfl, rfl, ?_⟩
  intro hv hmem
  have h : K.dkDestroy v = K.dkDestroy nullptr := by
    simpa [detail.Handle.destroy, detail.Handle._clear, detail.Handle.toRaw] using hmem
  exact hv (HandleKind.dkDestroy_injective K v nullptr h)

/-- C13 on a queue that holds handle 7: the second `destroy()` does not pass 7 again. -/
theorem C13_destroy_once_then_null_witness :
    DriverCall.dkQueueDestroy 7 ∉ ((detail.Handle.ofRaw 7 : Queue).destroy.1).destroy.2 :=
  (C13_destroy_once_then_null .Queue 7).2.2.2.2.2 (by decide)

/-- C16: for every handle kind and every held value `v`, after `h = nullptr` the handle is
null and no driver call has been made, in particular no destroy of `v`; and among the
operations of a plain handle (constructors, conversions, comparisons, assignment of
`nullptr`, `destroy()`), `destroy()` is the only one that makes a driver call at all, so
the only one that passes a handle to the destroy entry point. -/
theorem C16_assign_nullptr_only_clears (K : HandleKind) (v : Nat) (h : detail.Handle K)
    (op : detail.HandleOp K) :
    (detail.Handle.ofRaw v : detail.Handle K).assignNullptr.1.toRaw = nullptr ∧
    (detail.Handle.ofRaw v : detail.Handle K).assignNullptr.1.toBool = false ∧
    (detail.Handle.ofRaw v : detail.Handle K).assignNullptr.2 = [] ∧
    K.dkDestroy v ∉ (detail.Handle.ofRaw v : detail.Handle K).assignNullptr.2 ∧
    (detail.HandleOp.run (detail.Handle.ofRaw v) (detail.HandleOp.assignNullptr : detail.HandleOp K)
      = (detail.Handle.ofNullptr, [])) ∧
    ((detail.HandleOp.run h op).2 ≠ [] ↔ op = .destroy) ∧
    ((∃ w, K.dkDestroy w ∈ (detail.HandleOp.run h op).2) ↔ op = .destroy) := by
  refine ⟨rfl, rfl, rfl, by simp [detail.Handle.assignNullptr], rfl, ?_, ?_⟩
  · cases op <;> simp [detail.HandleOp.run, detail.Handle.assignNullptr, detail.Handle.destroy]
  · cases op <;> simp [detail.HandleOp.run, detail.Handle.assignNullptr, detail.Handle.destroy]

/-! ## The templated clearColor -/

/-- An array placed in memory reads back as its elements. -/
theorem detail.readArray_writeArray {T : Type} (mem : Int → T) (addr : Int) (vals : List T) :
    detail.readArray (detail.writeArray mem addr vals) addr vals.length = vals := by
  apply List.ext_getElem
  · simp [detail.readArray]
  · intro i h1 h2
    have hi : i < vals.length := h2
    have hin : addr ≤ addr + (i : Int) ∧ addr + (i : Int) < addr + (vals.length : Int) := by
      omega
    have hsub : (addr + (i : Int) - addr).toNat = i := by omega
    simp only [detail.readArray, detail.writeArray, List.getElem_map, List.getElem_range, hin,
      and_self, if_true, List.getD_eq_getElem?_getD, hsub, List.getElem?_eq_getElem hi,
      Option.getD_some]

/-- C14: for a component type of 4 bytes, the templated `clearColor(targetId, clearMask,
red, green, blue, alpha)` makes exactly the driver call of the pointer overload called
with the same `targetId` and `clearMask` and the address of an array that holds `red`,
`green`, `blue`, `alpha` at the indices 0 to 3, which are 4 components of 4 bytes, 16
bytes, and leaves memory outside the array alone; every component that is not supplied
is zero; and a component type that is not 4 bytes wide is rejected. -/
theorem C14_clear_color_template (sizeofT : Nat) (mem : Int → Nat) (data : Int) (this : CmdBuf)
    (targetId clearMask red green blue alpha : Nat) :
    CmdBuf.clearColorT 4 mem data this targetId clearMask red green blue alpha =
      some (detail.writeArray mem data [red, green, blue, alpha],
        CmdBuf.clearColor this targetId clearMask data) ∧
    detail.readArray (detail.writeArray mem data [red, green, blue, alpha]) data 4 =
      [red, green, blue, alpha] ∧
    [red, green, blue, alpha].length * 4 = 16 ∧
    (∀ a, ¬ (data ≤ a ∧ a < data + 4) →
      detail.writeArray mem data [red, green, blue, alpha] a = mem a) ∧
    CmdBuf.clearColorT 4 mem data this targetId clearMask =
      CmdBuf.clearColorT 4 mem data this targetId clearMask 0 0 0 0 ∧
    CmdBuf.clearColorT 4 mem data this targetId clearMask red =
      CmdBuf.clearColorT 4 mem data this targetId clearMask red 0 0 0 ∧
    CmdBuf.clearColorT 4 mem data this targetId clearMask red green =
      CmdBuf.clearColorT 4 mem data this targetId clearMask red green 0 0 ∧
    CmdBuf.clearColorT 4 mem data this targetId clearMask red green blue =
      CmdBuf.clearColorT 4 mem data this targetId clearMask red green blue 0 ∧
    (sizeofT ≠ 4 →
      CmdBuf.clearColorT sizeofT mem data this targetId clearMask red green blue alpha = none) ∧
    (sizeofT = 4 →
      (CmdBuf.clearColorT sizeofT mem data this targetId clearMask red green blue alpha).isSome) := by
  refine ⟨rfl, detail.readArray_writeArray mem data [red, green, blue, alpha], rfl, ?_,
    rfl, rfl, rfl, rfl, ?_, ?_⟩
  · intro a ha
    have ha1 : ¬ (data ≤ a ∧ a < data + (([red, green, blue, alpha] : List Nat).length : Int)) := by
      simpa using ha
    simp only [detail.writeArray, ha1, if_false]
  · intro h
    simp [CmdBuf.clearColorT, h]
  · intro h
    simp [CmdBuf.clearColorT, h]

/-- C14 on a type of 2 bytes, which is rejected, and on a clear to opaque red with the
blue and alpha components left out. -/
theorem C14_clear_color_template_witness :
    CmdBuf.clearColorT 2 (fun _ => 9) 100 (detail.Handle.ofRaw 1) 0 15 255 0 0 255 = none ∧
    (CmdBuf.clearColorT 4 (fun _ => 9) 100 (detail.Handle.ofRaw 1) 0 15 255 0 0 255).isSome :=
  ⟨(C14_clear_color_template 2 (fun _ => 9) 100 (detail.Handle.ofRaw 1) 0 15 255 0 0 255).2.2.2.2.2.2.2.2.1
      (by decide),
    (C14_clear_color_template 4 (fun _ => 9) 100 (detail.Handle.ofRaw 1) 0 15 255 0 0 255).2.2.2.2.2.2.2.2.2
      rfl⟩

/-! ## Access through an ArrayProxy -/

/-- With more fuel than elements the loop from `it` to `it + n` ends, and it reads the `n`
addresses `it`, `it + 1`, ..., in order. -/
theorem detail.iterAddrs_spec (n fuel : Nat) (it : Int) (hfuel : n < fuel) :
    detail.iterAddrs (it + n) fuel it =
      some ((List.range n).map fun (i : Nat) => it + (i : Int)) := by
  induction n generalizing fuel it with
  | zero =>
    obtain ⟨f, rfl⟩ : ∃ f, fuel = f + 1 := ⟨fuel - 1, by omega⟩
    simp [detail.iterAddrs]
  | succ n ih =>
    obtain ⟨f, rfl⟩ : ∃ f, fuel = f + 1 := ⟨fuel - 1, by omega⟩
    have hne : it ≠ it + ((n + 1 : Nat) : Int) := by omega
    have hstop : it + ((n + 1 : Nat) : Int) = (it + 1) + (n : Int) := by omega
    rw [detail.iterAddrs, if_neg hne, hstop, ih f (it + 1) (by omega), List.range_succ_eq_map]
    simp only [Option.map_some', List.map_cons, List.map_map, Nat.cast_zero, add_zero,
      Option.some.injEq, List.cons.injEq, true_and]
    apply List.map_congr_left
    intro i _
    simp only [Function.comp_apply, Nat.succ_eq_add_one, Nat.cast_add, Nat.cast_one]
    omega

/-- C15: for every non-empty `ArrayProxy` (`size() >= 1`) over the elements `a[0]`, ...,
`a[n-1]` it designates, `front()` is `a[0]`, `back()` is `a[n-1]`, and iterating from
`begin()` to `end()` ends and visits exactly `a[0]`, ..., `a[n-1]` in order, at addresses
inside the range from `begin()` to `end()`, as are the addresses `front()` and `back()`
read; for an empty `ArrayProxy` the addresses `front()` and `back()` read are outside
that range. -/
theorem C15_array_proxy_access_in_range {T : Type} (mem : Int → T) (p q : detail.ArrayProxy T)
    (fuel : Nat) (hne : 1 ≤ p.size) (hfuel : p.size < fuel) (hq : q.size = 0) :
    (p.toList mem)[0]? = some (p.front mem) ∧
    (p.toList mem)[p.size - 1]? = some (p.back mem) ∧
    p.iterate mem fuel = some (p.toList mem) ∧
    (∀ addrs, p.iterateAddrs fuel = some addrs → ∀ a ∈ addrs, p.begin ≤ a ∧ a < p.end_) ∧
    (p.begin ≤ p.frontAddr ∧ p.frontAddr < p.end_) ∧
    (p.begin ≤ p.backAddr ∧ p.backAddr < p.end_) ∧
    ¬ (q.begin ≤ q.frontAddr ∧ q.frontAddr < q.end_) ∧
    ¬ (q.begin ≤ q.backAddr ∧ q.backAddr < q.end_) := by
  have hsize : p.m_count = p.size := rfl
  have hiter : p.iterateAddrs fuel =
      some ((List.range p.size).map fun (i : Nat) => p.m_ptr + (i : Int)) := by
    simp only [detail.ArrayProxy.iterateAddrs, detail.ArrayProxy.end_, detail.ArrayProxy.begin]
    exact detail.iterAddrs_spec p.m_count fuel p.m_ptr hfuel
  have hq0 : q.m_count = 0 := hq
  refine ⟨?_, ?_, ?_, ?_, ?_, ?_, ?_, ?_⟩
  · rw [(detail.ArrayProxy.toList_spec mem p).2 0 (by omega)]
    simp [detail.ArrayProxy.front, detail.ArrayProxy.frontAddr, detail.ArrayProxy.data]
  · rw [(detail.ArrayProxy.toList_spec mem p).2 (p.size - 1) (by omega)]
    have hcast : ((p.size - 1 : Nat) : Int) = (p.m_count : Int) - 1 := by omega
    simp only [detail.ArrayProxy.back, detail.ArrayProxy.backAddr, detail.ArrayProxy.data, hcast]
    congr 2
    omega
  · simp [detail.ArrayProxy.iterate, hiter, detail.ArrayProxy.toList, detail.readArray,
      detail.ArrayProxy.data, Function.comp_def]
  · intro addrs haddrs a ha
    rw [hiter, Option.some.injEq] at haddrs
    subst haddrs
    simp only [List.mem_map, List.mem_range] at ha
    obtain ⟨i, hi, rfl⟩ := ha
    simp only [detail.ArrayProxy.begin, detail.ArrayProxy.end_]
    omega
  · simp only [detail.ArrayProxy.begin, detail.ArrayProxy.end_, detail.ArrayProxy.frontAddr]
    omega
  · simp only [detail.ArrayProxy.begin, detail.ArrayProxy.end_, detail.ArrayProxy.backAddr]
    omega
  · simp only [detail.ArrayProxy.begin, detail.ArrayProxy.end_, detail.ArrayProxy.frontAddr, hq0]
    omega
  · simp only [detail.ArrayProxy.begin, detail.ArrayProxy.end_, detail.ArrayProxy.backAddr, hq0]
    omega

/-- C15 on the three elements 10, 11, 12 stored from address 40 on: iteration visits
them in order. -/
theorem C15_array_proxy_access_in_range_witness :
    (detail.ArrayProxy.ofCountPtr 3 40 : detail.ArrayProxy Nat).iterate
        (fun a => (a - 30).toNat) 4 =
      some ((detail.ArrayProxy.ofCountPtr 3 40 : detail.ArrayProxy Nat).toList
        (fun a => (a - 30).toNat)) :=
  (C15_array_proxy_access_in_range (fun a => (a - 30).toNat)
    (detail.ArrayProxy.ofCountPtr 3 40) detail.ArrayProxy.ofNullptr 4
    (by decide) (by decide) rfl).2.2.1

/-! ## Setters of several fields -/

/-- C17: `ImageLayoutMaker::setDimensions(w)` sets the dimensions to `(w, 0, 0)` and
`setDimensions(w, h, d)` sets them to `(w, h, d)`; `ImageView::setSwizzle()` sets the
swizzle to (Red, Green, Blue, Alpha), `setLayers()` sets `layerOffset` and `layerCount`
to 0 and `setMipLevels()` sets `mipLevelOffset` and `mipLevelCount` to 0; with arguments
they store the arguments; each leaves every other field of its record unchanged and is
idempotent. -/
theorem C17_multi_field_setters (m : ImageLayoutMaker) (v : ImageView) (w h d a b : Nat)
    (x y z t : DkSwizzle) :
    (m.setDimensions w =
        ⟨m.device, m.type, m.flags, m.format, m.msMode, (w, 0, 0), m.mipLevels, m.pitchStride,
          m.tileSize⟩ ∧
      m.setDimensions w h d =
        ⟨m.device, m.type, m.flags, m.format, m.msMode, (w, h, d), m.mipLevels, m.pitchStride,
          m.tileSize⟩ ∧
      (m.setDimensions w).setDimensions w = m.setDimensions w ∧
      (m.setDimensions w h d).setDimensions w h d = m.setDimensions w h d) ∧
    (v.setSwizzle =
        ⟨v.pImage, v.type, v.format, (.Red, .Green, .Blue, .Alpha), v.dsSource, v.layerOffset,
          v.layerCount, v.mipLevelOffset, v.mipLevelCount⟩ ∧
      v.setSwizzle x y z t =
        ⟨v.pImage, v.type, v.format, (x, y, z, t), v.dsSource, v.layerOffset,
          v.layerCount, v.mipLevelOffset, v.mipLevelCount⟩ ∧
      v.setSwizzle.setSwizzle = v.setSwizzle ∧
      (v.setSwizzle x y z t).setSwizzle x y z t = v.setSwizzle x y z t) ∧
    (v.setLayers =
        ⟨v.pImage, v.type, v.format, v.swizzle, v.dsSource, 0, 0, v.mipLevelOffset,
          v.mipLevelCount⟩ ∧
      v.setLayers a b =
        ⟨v.pImage, v.type, v.format, v.swizzle, v.dsSource, a, b, v.mipLevelOffset,
          v.mipLevelCount⟩ ∧
      v.setLayers.setLayers = v.setLayers ∧
      (v.setLayers a b).setLayers a b = v.setLayers a b) ∧
    (v.setMipLevels =
        ⟨v.pImage, v.type, v.format, v.swizzle, v.dsSource, v.layerOffset, v.layerCount, 0, 0⟩ ∧
      v.setMipLevels a b =
        ⟨v.pImage, v.type, v.format, v.swizzle, v.dsSource, v.layerOffset, v.layerCount, a, b⟩ ∧
      v.setMipLevels.setMipLevels = v.setMipLevels ∧
      (v.setMipLevels a b).setMipLevels a b = v.setMipLevels a b) :=
  ⟨⟨rfl, rfl, rfl, rfl⟩, ⟨rfl, rfl, rfl, rfl⟩, ⟨rfl, rfl, rfl, rfl⟩, ⟨rfl, rfl, rfl, rfl⟩⟩

end dk
